import Mathlib

/-!
# Placement engine and scene registry of the brick builder (`src/js/app.js`)

A shallow embedding of the snapping, collision, registry, undo and
persistence code of the `App` class, and of its geometry factory.  JavaScript
numbers are modelled as rationals (the claims are about real coordinates;
rounding error of doubles is out of scope).  JavaScript object identity is
modelled by a `ref` field that every `new` fills from the allocation counter
`App.nextRef`; `===` on objects is structural equality of values that carry
their `ref`.

Rendering state (scene graph, raycast list `objects`, DOM statistics) is not
read by any operation embedded here and is left out.  A geometry is kept as
the primitive it is made from and the transformations applied to it, not as a
vertex buffer; the merge of the three.js library is a parameter that tells
for which lists of geometries it succeeds, and `mergeGeometriesOk` is the test
that the library applies to the geometries of this program.

The map `this.specs` is a plain object.  A stored record whose spec id is a
property name inherited from `Object.prototype` makes `addBrick` build a part
from the inherited member; such parts, and a stored history that is not an
array, have no counterpart here, and `load` and `undo` say so in their result.
-/

namespace Lego

/-! ## Configuration and catalog -/

/-- The constant `CFG.UNIT`. -/
def UNIT : ℚ := 20

/-- A catalog entry (`name` and `icon` are interface text and are left out). -/
structure Spec where
  id : String
  type : String
  w : Nat
  d : Nat
  h : ℚ
  builder : Option String
  deriving DecidableEq

/-- The constant `CATALOG`, flattened in declaration order
(`Object.values(CATALOG).flat()`). -/
def CATALOG : List Spec :=
  [ ⟨"b2x4", "brick", 2, 4, 24, none⟩,
    ⟨"b2x2", "brick", 2, 2, 24, none⟩,
    ⟨"b1x4", "brick", 1, 4, 24, none⟩,
    ⟨"b1x2", "brick", 1, 2, 24, none⟩,
    ⟨"p2x4", "plate", 2, 4, 8, none⟩,
    ⟨"p4x4", "plate", 4, 4, 8, none⟩,
    ⟨"p8x8", "plate", 8, 8, 8, none⟩,
    ⟨"p1x1", "plate", 1, 1, 8, none⟩,
    ⟨"slope2x4", "compound", 2, 4, 24, some "buildSlope"⟩,
    ⟨"slope2x2", "compound", 2, 2, 24, some "buildSlope"⟩,
    ⟨"slope_inverse", "compound", 2, 2, 24, some "buildInverseSlope"⟩,
    ⟨"door", "compound", 1, 4, 64, some "buildDoor"⟩,
    ⟨"window", "compound", 1, 4, 48, some "buildWindow"⟩,
    ⟨"fence", "brick", 1, 4, 16, none⟩,
    ⟨"pre_tree", "compound", 2, 2, 120, some "buildTree"⟩,
    ⟨"pre_flower", "compound", 1, 1, 32, some "buildFlower"⟩,
    ⟨"grass", "plate", 16, 16, 4, none⟩ ]

/-- The entries that the constructor writes into the map `this.specs`:
`specs id` is the catalog entry with that id, `none` when the catalog has
none.  The catalog ids are pairwise distinct, so the last write of the
constructor loop is the only one.  The map is a plain object: where the
catalog has no entry, the lookup `this.specs[id]` yields `undefined`, except
for the ids in `inheritedKeys`. -/
def specs (id : String) : Option Spec :=
  CATALOG.find? (fun spec => spec.id == id)

/-- The property names that the plain object `this.specs` inherits from
`Object.prototype`.  None of them is a catalog id.  For these names the
lookup `this.specs[id]` yields the inherited member, a function or object
that has none of the fields `id`, `type`, `w`, `d`, `h`: `addBrick` does not
throw on it and builds a part whose spec id is `undefined` and whose bounds
are `NaN`.  Such a part has no counterpart in this embedding. -/
def inheritedKeys : List String :=
  ["constructor", "__defineGetter__", "__defineSetter__", "hasOwnProperty",
   "__lookupGetter__", "__lookupSetter__", "isPrototypeOf", "propertyIsEnumerable",
   "toString", "valueOf", "__proto__", "toLocaleString"]

/-- The constant `COLORS`. -/
def COLORS : List Nat :=
  [0xcc0000, 0x0055bb, 0xffcc00, 0x228b22, 0xffffff, 0x1a1a1a,
   0x808080, 0xa52a2a, 0xff8800, 0xaa00aa, 0x00a8ff, 0xffa07a]

/-! ## Vectors and boxes (`THREE.Vector3`, `THREE.Box3`) -/

/-- A `THREE.Vector3`. -/
structure Vec3 where
  x : ℚ
  y : ℚ
  z : ℚ
  deriving DecidableEq

/-- A `THREE.Box3` object; `ref` is its object identity. -/
structure Box3 where
  ref : Nat
  min : Vec3
  max : Vec3
  deriving DecidableEq

/-- The method `Box3.intersectsBox` of three.js (library code, not in the
repository): two boxes intersect unless some axis separates them, touching
boxes intersect. -/
def Box3.intersectsBox (self box : Box3) : Bool :=
  if box.max.x < self.min.x ∨ box.min.x > self.max.x ∨
     box.max.y < self.min.y ∨ box.min.y > self.max.y ∨
     box.max.z < self.min.z ∨ box.min.z > self.max.z then false else true

/-! ## Placed parts, history, storage, application state -/

/-- The record `{specId, color, pos, rot}` written to history and storage
(`pos` is the array `[x, y, z]` of `toArray` / `fromArray`). -/
structure BrickData where
  specId : String
  color : Nat
  pos : Vec3
  rot : Nat
  deriving DecidableEq

/-- The object `mesh.userData` assigned in `addBrick`. -/
structure UserData where
  id : ℚ
  specId : String
  color : Nat
  rot : Nat
  box : Box3
  deriving DecidableEq

/-- A placed part: the mesh object (`ref` is its object identity) with its
position and user data. -/
structure Mesh where
  ref : Nat
  position : Vec3
  userData : UserData
  deriving DecidableEq

/-- An entry of `this.history`; `id` is present on entries pushed by
`addBrick` only. -/
structure HistoryEntry where
  action : String
  id : Option ℚ
  data : BrickData
  deriving DecidableEq

/-- The content of a `localStorage` key: absent (or the empty string); a
string that `JSON.parse` rejects; the JSON of a value that is not an array
(`null`, a number, a string, a boolean, an object); or the JSON of an array
of records of the saved shape.  Arrays with other elements are not
represented. -/
inductive Stored (α : Type) where
  | missing
  | malformed
  | notArray
  | value (v : α)
  deriving DecidableEq

/-- The fields of `App` that the placement engine, the registry, the history
and the persistence code read or write. -/
structure App where
  bricks : List Mesh
  collisionBoxes : List Box3
  history : List HistoryEntry
  currentSpec : Spec
  currentColor : Nat
  rotation : Nat
  ghostPosition : Vec3
  nextRef : Nat
  lego_bricks : Stored (List BrickData)
  lego_history : Stored (List HistoryEntry)

/-- The state after the constructor, with nothing in storage: empty registry
and history, `b2x4` active, first palette color, rotation 0. -/
def App.initial : App :=
  { bricks := [], collisionBoxes := [], history := [],
    currentSpec := ⟨"b2x4", "brick", 2, 4, 24, none⟩,
    currentColor := 0xcc0000, rotation := 0,
    ghostPosition := ⟨0, 0, 0⟩, nextRef := 0,
    lego_bricks := Stored.missing, lego_history := Stored.missing }

/-! ## Snapping (`calcSnap`) -/

/-- The object of a ray hit: the invisible ground plane or a placed part. -/
inductive HitObject where
  | plane
  | brick (mesh : Mesh)

/-- The field `hit.face`; its normal may be absent. -/
structure Face where
  normal : Option Vec3

/-- A raycaster intersection. -/
structure Hit where
  point : Vec3
  face : Option Face
  object : HitObject

/-- The function `Math.round`: the nearest integer, halves rounded up. -/
def mathRound (v : ℚ) : ℤ := ⌊v + 1 / 2⌋

/-- The local function `snap` of `calcSnap`. -/
def snap (val : ℚ) (dim : Nat) : ℚ :=
  if dim % 2 = 0 then (mathRound (val / UNIT) : ℚ) * UNIT
  else (⌊val / UNIT⌋ : ℚ) * UNIT + UNIT / 2

/-- The footprint `(w, d)` that `calcSnap` snaps with. -/
def calcSnapDims (spec : Spec) (rotation : Nat) : Nat × Nat :=
  let isRot := rotation % 2 != 0
  (if isRot then spec.d else spec.w, if isRot then spec.w else spec.d)

/-- The method `calcSnap`. -/
def calcSnap (s : App) (hit : Hit) : Vec3 :=
  let spec := s.currentSpec
  let (w, d) := calcSnapDims spec s.rotation
  match hit.face.bind (fun f => f.normal) with
  | none => ⟨0, 0, 0⟩
  | some normal =>
    let px := hit.point.x + normal.x * (1 / 10)
    let pz := hit.point.z + normal.z * (1 / 10)
    let x := snap px w
    let z := snap pz d
    let y : ℚ :=
      match hit.object with
      | HitObject.brick mesh =>
        let box := mesh.userData.box
        if normal.y > 1 / 2 then box.max.y else box.min.y
      | HitObject.plane => 0
    ⟨x, y, z⟩

/-! ## Collision (`checkCollision`) -/

/-- The footprint in world units, `(w, d)` of `checkCollision`. -/
def checkCollisionDims (spec : Spec) (rotation : Nat) : ℚ × ℚ :=
  let isRot := rotation % 2 != 0
  ((if isRot then spec.d else spec.w) * UNIT, (if isRot then spec.w else spec.d) * UNIT)

/-- The candidate box that `checkCollision` tests: the footprint and height
around `pos`, every face moved inward by 0.5.  It is a temporary object. -/
def checkCollisionBox (spec : Spec) (rotation : Nat) (pos : Vec3) : Box3 :=
  let (w, d) := checkCollisionDims spec rotation
  { ref := 0,
    min := ⟨pos.x - w / 2 + 1 / 2, pos.y + 1 / 2, pos.z - d / 2 + 1 / 2⟩,
    max := ⟨pos.x + w / 2 - 1 / 2, pos.y + spec.h - 1 / 2, pos.z + d / 2 - 1 / 2⟩ }

/-- The method `checkCollision`: `false` as soon as the candidate box
intersects a stored box, `true` otherwise. -/
def checkCollision (s : App) (pos : Vec3) : Bool :=
  let box := checkCollisionBox s.currentSpec s.rotation pos
  !(s.collisionBoxes.any (fun b => box.intersectsBox b))

/-! ## Registry, history and persistence -/

/-- The method `Array.prototype.indexOf` on an array of objects: the first
index holding the object, `-1` when there is none. -/
def jsIndexOf {α : Type} [DecidableEq α] (xs : List α) (x : α) : Int :=
  if x ∈ xs then (xs.indexOf x : Int) else -1

/-- The call `xs.splice(start, 1)`: a negative `start` counts from the end
(clamped at 0), a `start` past the end removes nothing. -/
def jsSplice1 {α : Type} (xs : List α) (start : Int) : List α :=
  if start < 0 then xs.eraseIdx (xs.length + start).toNat
  else xs.eraseIdx start.toNat

/-- The record that `save`, `removeBrick` and the history keep of a mesh. -/
def Mesh.brickData (mesh : Mesh) : BrickData :=
  { specId := mesh.userData.specId, color := mesh.userData.color,
    pos := mesh.position, rot := mesh.userData.rot }

/-- The method `save`: the part list is always written, the history only
when `isHistoryUpdate` is false. -/
def save (s : App) (isHistoryUpdate : Bool) : App :=
  let brickData := s.bricks.map Mesh.brickData
  let s1 := { s with lego_bricks := Stored.value brickData }
  if !isHistoryUpdate then { s1 with lego_history := Stored.value s1.history } else s1

/-- The footprint in world units, `(w_unit, d_unit)` of `addBrick`. -/
def addBrickDims (spec : Spec) (rot : Nat) : ℚ × ℚ :=
  let isRot := rot % 2 != 0
  ((if isRot then spec.d else spec.w) * UNIT, (if isRot then spec.w else spec.d) * UNIT)

/-- The occupied volume `mesh.userData.box` that `addBrick` derives. -/
def addBrickBox (ref : Nat) (spec : Spec) (rot : Nat) (pos : Vec3) : Box3 :=
  let (w_unit, d_unit) := addBrickDims spec rot
  { ref := ref,
    min := ⟨pos.x - w_unit / 2, pos.y, pos.z - d_unit / 2⟩,
    max := ⟨pos.x + w_unit / 2, pos.y + spec.h, pos.z + d_unit / 2⟩ }

/-- The method `addBrick`.  With `data` it reconstructs a stored part, without
it places the active spec at the ghost pose, logs the action and saves.
`newId` is the value of `Date.now() + Math.random()`.  The result is `none`
when `data.specId` is not a catalog id.  Then, unless the id is one of
`inheritedKeys`, `this.specs[data.specId]` is `undefined`, reading `spec.type`
fails and the call throws before any field of the state is written.  For an
id in `inheritedKeys` the call does not throw and leaves a state that this
embedding does not represent; the callers `undo` and `addBricks` tell the two
cases apart.  The drawable that `getLegoPart` builds for a catalog spec is
the subject of `addBrickMesh`. -/
def addBrick (s : App) (data : Option BrickData) (newId : ℚ) : Option App :=
  let found := match data with
    | some dt => specs dt.specId
    | none => some s.currentSpec
  match found with
  | none => none
  | some spec =>
    let color := match data with
      | some dt => dt.color
      | none => s.currentColor
    let pos := match data with
      | some dt => dt.pos
      | none => s.ghostPosition
    let rot := match data with
      | some dt => dt.rot
      | none => s.rotation
    let box := addBrickBox (s.nextRef + 1) spec rot pos
    let mesh : Mesh :=
      { ref := s.nextRef, position := pos,
        userData := { id := newId, specId := spec.id, color := color, rot := rot, box := box } }
    let s1 := { s with bricks := s.bricks ++ [mesh],
                       collisionBoxes := s.collisionBoxes ++ [mesh.userData.box],
                       nextRef := s.nextRef + 2 }
    match data with
    | none =>
      let entry : HistoryEntry :=
        { action := "add", id := some mesh.userData.id,
          data := { specId := spec.id, color := color, pos := pos, rot := rot } }
      some (save { s1 with history := s1.history ++ [entry] } false)
    | some _ => some s1

/-- The method `removeBrick`. -/
def removeBrick (s : App) (mesh : Mesh) (isUndo : Bool) : App :=
  let idx := jsIndexOf s.bricks mesh
  if idx = -1 then s
  else
    let brickData := mesh.brickData
    let s1 :=
      if !isUndo then
        save { s with history := s.history ++ [{ action := "remove", id := none, data := brickData }] } false
      else s
    { s1 with bricks := jsSplice1 s1.bricks idx,
              collisionBoxes :=
                jsSplice1 s1.collisionBoxes (jsIndexOf s1.collisionBoxes mesh.userData.box) }

/-- The method `clearScene`; `createGhost` leaves a new ghost at the origin. -/
def clearScene (s : App) : App :=
  { s with bricks := [], collisionBoxes := [], ghostPosition := ⟨0, 0, 0⟩ }

/-- How a call ended: it returned; it threw and left the state as it was at
the throw; or it went on with a member inherited from `Object.prototype` in
place of a spec, into a state that this embedding does not represent. -/
inductive Completion where
  | returned (s : App)
  | threw (s : App)
  | unrepresented

/-- The state a call left behind, when the embedding represents it. -/
def Completion.state? : Completion → Option App
  | Completion.returned s => some s
  | Completion.threw s => some s
  | Completion.unrepresented => none

/-- The method `undo`; `newId` is the identifier the re-added part gets when
the undone entry is a removal. -/
def undo (s : App) (newId : ℚ) : Completion :=
  match s.history.getLast? with
  | none => Completion.returned s
  | some lastAction =>
    let s1 := { s with history := s.history.dropLast }
    let data := lastAction.data
    if lastAction.action = "add" then
      let s2 :=
        match s1.bricks.find? (fun b => decide (some b.userData.id = lastAction.id)) with
        | some meshToRemove => removeBrick s1 meshToRemove true
        | none => s1
      Completion.returned (save s2 true)
    else if lastAction.action = "remove" then
      match addBrick s1 (some data) newId with
      | none =>
        if data.specId ∈ inheritedKeys then Completion.unrepresented else Completion.threw s1
      | some s2 =>
        let s3 :=
          match s2.history.getLast? with
          | some e => if e.action = "add" then { s2 with history := s2.history.dropLast } else s2
          | none => s2
        Completion.returned (save s3 true)
    else Completion.returned (save s1 true)

/-! ## Reachable states -/

/-- States the application can be in: from the initial state by changes of
the pending part (catalog button, palette, rotation key, pointer move),
`addBrick` by the user or from a record, `removeBrick`, `clearScene`, `undo`
(as long as it stays within the states that the embedding represents), and
the assignment of a stored history that `load` makes. -/
inductive Reachable : App → Prop where
  | initial : Reachable App.initial
  | pending (s : App) (spec : Spec) (color rotation : Nat) (ghost : Vec3) :
      Reachable s → spec ∈ CATALOG →
      Reachable { s with currentSpec := spec, currentColor := color,
                         rotation := rotation, ghostPosition := ghost }
  | addBrick (s s' : App) (data : Option BrickData) (newId : ℚ) :
      Reachable s → addBrick s data newId = some s' → Reachable s'
  | removeBrick (s : App) (mesh : Mesh) (isUndo : Bool) :
      Reachable s → Reachable (removeBrick s mesh isUndo)
  | clearScene (s : App) : Reachable s → Reachable (clearScene s)
  | undo (s s' : App) (newId : ℚ) :
      Reachable s → (undo s newId).state? = some s' → Reachable s'
  | historyLoaded (s : App) (h : List HistoryEntry) :
      Reachable s → Reachable { s with history := h }

/-! ## Notions used to state the placement properties -/

/-- The full occupied volume of the pending part at `pos`: the box that
`addBrick` would store for the active spec and rotation
(`x ± w/2`, `y .. y+h`, `z ± d/2`). -/
def candidateVolume (s : App) (pos : Vec3) : Box3 :=
  addBrickBox 0 s.currentSpec s.rotation pos

/-- Two intervals do not overlap: they are disjoint or share only a boundary
point. -/
def axisApart (amin amax bmin bmax : ℚ) : Prop :=
  amax ≤ bmin ∨ bmax ≤ amin

/-- The length of the common part of two intervals (negative when they are
apart). -/
def overlapLength (amin amax bmin bmax : ℚ) : ℚ :=
  min amax bmax - max amin bmin

/-- Two boxes are apart on at least one axis. -/
def Box3.apartOnSomeAxis (a b : Box3) : Prop :=
  axisApart a.min.x a.max.x b.min.x b.max.x ∨
  axisApart a.min.y a.max.y b.min.y b.max.y ∨
  axisApart a.min.z a.max.z b.min.z b.max.z

/-- Two boxes overlap with positive length on all three axes. -/
def Box3.overlapsOnAllAxes (a b : Box3) : Prop :=
  0 < overlapLength a.min.x a.max.x b.min.x b.max.x ∧
  0 < overlapLength a.min.y a.max.y b.min.y b.max.y ∧
  0 < overlapLength a.min.z a.max.z b.min.z b.max.z

/-- The stored box `b` reaches the volume `a` shrunk by `m` on every face, on
all three axes (contact with the shrunk volume counts). -/
def Box3.reachesWithin (a b : Box3) (m : ℚ) : Prop :=
  (a.min.x + m ≤ b.max.x ∧ b.min.x ≤ a.max.x - m) ∧
  (a.min.y + m ≤ b.max.y ∧ b.min.y ≤ a.max.y - m) ∧
  (a.min.z + m ≤ b.max.z ∧ b.min.z ≤ a.max.z - m)

/-! ## The registry invariant -/

/-- The mesh that `addBrick` creates. -/
def newMesh (s : App) (spec : Spec) (color : Nat) (pos : Vec3) (rot : Nat) (newId : ℚ) : Mesh :=
  { ref := s.nextRef, position := pos,
    userData := { id := newId, specId := spec.id, color := color, rot := rot,
                  box := addBrickBox (s.nextRef + 1) spec rot pos } }

/-- The occupied volume of a placed part. -/
def Mesh.box (mesh : Mesh) : Box3 := mesh.userData.box

/-- The invariant of the registry: the box list is the list of the boxes of
the parts, in order; the box objects are pairwise distinct and older than the
allocation counter; every box is the volume `addBrick` derives from the
catalog spec of the part; the active spec is a catalog entry. -/
structure Inv (s : App) : Prop where
  lockstep : s.collisionBoxes = s.bricks.map Mesh.box
  nodup : (s.bricks.map Mesh.box).Nodup
  fresh : ∀ m ∈ s.bricks, m.userData.box.ref < s.nextRef
  derived : ∀ m ∈ s.bricks, ∃ spec ∈ CATALOG, specs m.userData.specId = some spec ∧
      m.userData.box = addBrickBox m.userData.box.ref spec m.userData.rot m.position
  current : s.currentSpec ∈ CATALOG

/-! ## Example scenes -/

/-- A hit on the ground plane at `(37, 0, -3)` with an upward normal. -/
def groundHit : Hit :=
  { point := ⟨37, 0, -3⟩, face := some ⟨some ⟨0, 1, 0⟩⟩, object := HitObject.plane }

/-- The scene after the user places the 2x4 brick of the initial state at the
ghost pose `(0, 0, 0)`; its instance id is 1. -/
def oneBrickScene : App :=
  (addBrick App.initial none 1).getD App.initial

/-- The part of `oneBrickScene`. -/
def originBrick : Mesh :=
  ⟨0, ⟨0, 0, 0⟩, ⟨1, "b2x4", 0xcc0000, 0, ⟨1, ⟨-20, 0, -40⟩, ⟨20, 24, 40⟩⟩⟩⟩

/-- The scene in which the user placed a 2x4 brick at the origin, a second one
on top of it at `(0, 24, 0)`, and then removed the first: one brick is left,
floating above the ground. -/
def floatingScene : App :=
  removeBrick
    ((addBrick { oneBrickScene with ghostPosition := ⟨0, 24, 0⟩ } none 2).getD oneBrickScene)
    originBrick false

/-- The part of `floatingScene`. -/
def floatingBrick : Mesh :=
  ⟨2, ⟨0, 24, 0⟩, ⟨2, "b2x4", 0xcc0000, 0, ⟨3, ⟨-20, 24, -40⟩, ⟨20, 48, 40⟩⟩⟩⟩

/-- A hit in the middle of the underside of `floatingBrick`. -/
def undersideHit : Hit :=
  { point := ⟨0, 24, 0⟩, face := some ⟨some ⟨0, -1, 0⟩⟩, object := HitObject.brick floatingBrick }

/-- A hit on the top face of `originBrick`, normal pointing up. -/
def topHit : Hit :=
  { point := ⟨5, 24, 5⟩, face := some ⟨some ⟨0, 1, 0⟩⟩, object := HitObject.brick originBrick }

/-! ## Admissible grid positions -/

/-- The grid positions on an axis for a footprint dimension: the multiples of
20 for an even dimension, the multiples of 20 plus 10 for an odd one. -/
def gridPosition (dim : Nat) (k : ℤ) : ℚ :=
  if dim % 2 = 0 then (k : ℚ) * 20 else (k : ℚ) * 20 + 10

/-! ## Loading (`load`) -/

/-- The loop `data.forEach(brick => this.addBrick(brick))` inside the `try`
of `load`: the records are added in order; when `addBrick` throws, the loop
ends there and the `catch` leaves the state as it is at that point.  A record
whose spec id is one of `inheritedKeys` does not make `addBrick` throw: the
loop goes on from a state that the embedding does not represent, and the
result is `none`.  `ids k` is the instance id given to the part made from
record `k`. -/
def addBricks (ids : Nat → ℚ) : App → Nat → List BrickData → Option App
  | s, _, [] => some s
  | s, k, brick :: rest =>
    match addBrick s (some brick) (ids k) with
    | none => if brick.specId ∈ inheritedKeys then none else some s
    | some s1 => addBricks ids s1 (k + 1) rest

/-- The method `load`; the result is `none` when the state it leaves is not
represented in the embedding.  A key that is absent is skipped.  For the part
list, a string that `JSON.parse` rejects and a value that is not an array
(`data.forEach` is not a function) both make the `try` block throw before any
record is read.  For the history, a string that `JSON.parse` rejects leaves
the history as it is, and any value that parses is assigned to
`this.history`, also one that is not an array: then the history is no list
any more. -/
def load (s : App) (ids : Nat → ℚ) : Option App :=
  let loaded : Option App :=
    match s.lego_bricks with
    | Stored.value data => addBricks ids s 0 data
    | Stored.notArray => some s
    | Stored.malformed => some s
    | Stored.missing => some s
  match loaded with
  | none => none
  | some s1 =>
    match s.lego_history with
    | Stored.value h => some { s1 with history := h }
    | Stored.notArray => none
    | Stored.malformed => some s1
    | Stored.missing => some s1

/-- The state of a new `App` before its `load`, in a browser whose storage
holds what the application `storage` left there. -/
def freshApp (storage : App) : App :=
  { App.initial with lego_bricks := storage.lego_bricks,
                     lego_history := storage.lego_history }

/-- A stored part list whose second record names a spec that is not in the
catalog. -/
def partlyReadable : App :=
  { App.initial with
      lego_bricks := Stored.value
        [{ specId := "b2x4", color := 0xcc0000, pos := ⟨0, 0, 0⟩, rot := 0 },
         { specId := "b9x9", color := 0xcc0000, pos := ⟨40, 0, 0⟩, rot := 0 }] }

/-! ## Geometry factory: shapes and materials -/

/-- The constant `CFG.STUD_R`. -/
def STUD_R : ℚ := 6

/-- The constant `CFG.STUD_H`. -/
def STUD_H : ℚ := 4

/-- The constant `CFG.GAP`. -/
def GAP : ℚ := 1 / 10

/-- The constant `CFG.SEGMENTS`. -/
def SEGMENTS : Nat := 2

/-- A drawing command of a `THREE.Shape`. -/
inductive PathCmd where
  | moveTo (x y : ℚ)
  | lineTo (x y : ℚ)
  | bezierCurveTo (cp1x cp1y cp2x cp2y x y : ℚ)
  deriving DecidableEq

/-- The primitive a geometry is constructed from, with the constructor
arguments of the source.  The bevel of an extrusion is
`(bevelSegments, bevelSize, bevelThickness)`, absent when bevelling is off. -/
inductive Shape where
  | roundedBox (width height depth : ℚ) (segments : Nat) (radius : ℚ)
  | box (width height depth : ℚ)
  | cylinder (radiusTop radiusBottom height : ℚ) (radialSegments : Nat)
  | cone (radius height : ℚ) (radialSegments : Nat)
  | sphere (radius : ℚ) (widthSegments heightSegments : Nat)
  | extrude (path : List PathCmd) (depth : ℚ) (bevel : Option (Nat × ℚ × ℚ))
  deriving DecidableEq

/-- A transformation baked into a geometry.  Angles are in half turns
(`Math.PI` is 1). -/
inductive Transform where
  | translate (x y z : ℚ)
  | rotateX (angle : ℚ)
  | rotateY (angle : ℚ)
  | rotateZ (angle : ℚ)
  | scale (x y z : ℚ)
  deriving DecidableEq

/-- A non-indexed buffer geometry: the primitive, whether it still has its
`uv` attribute, and the transformations applied to it, in order. -/
structure Geometry where
  shape : Shape
  uv : Bool
  transforms : List Transform
  deriving DecidableEq

/-- A new geometry of a primitive (every primitive used here comes with a
`uv` attribute). -/
def Geometry.new (shape : Shape) : Geometry :=
  { shape := shape, uv := true, transforms := [] }

/-- The call `geometry.deleteAttribute('uv')`. -/
def Geometry.deleteUv (g : Geometry) : Geometry :=
  { g with uv := false }

/-- The calls `translate`, `rotateX`, `rotateY`, `rotateZ`, `scale` and
`applyMatrix4` of a geometry. -/
def Geometry.apply (g : Geometry) (t : Transform) : Geometry :=
  { g with transforms := g.transforms ++ [t] }

/-- The displacement of a geometry that was only translated: the sum of its
translations, which is where the centre of a centred primitive ends up. -/
def translationOf : List Transform → Option Vec3
  | [] => some ⟨0, 0, 0⟩
  | Transform.translate x y z :: rest =>
    (translationOf rest).map (fun v => ⟨x + v.x, y + v.y, z + v.z⟩)
  | _ :: _ => none

/-- A material object.  `getMaterial(color)` returns the cached
`MeshStandardMaterial` of the color (the cache `matCache` is never emptied, so
the object is determined by the color); `glass` is `this.glassMat`.  Equality
is equality of `uuid`. -/
inductive Material where
  | standard (color : Nat)
  | glass
  deriving DecidableEq

/-- The method `getMaterial`. -/
def getMaterial (color : Nat) : Material := Material.standard color

/-- An entry `{ geometry, material }` of a builder list; the material `null`
is `none`. -/
structure Part where
  geometry : Geometry
  material : Option Material
  deriving DecidableEq

/-! ## Geometry factory: builders -/

/-- The method `getStud`. -/
def getStud (h : ℚ) : Geometry :=
  ((Geometry.new (Shape.cylinder STUD_R STUD_R STUD_H 12)).deleteUv).apply
    (Transform.translate 0 (h + STUD_H / 2) 0)

/-- The stud loop that the builders share, written out in each of them:
for `x` below `spec.w` and `z` below `spec.d`, a clone of `getStud(h)` moved to
`(-ox + x*UNIT, 0, -oz + z*UNIT)`, pushed with the given material. -/
def studLoop (spec : Spec) (h : ℚ) (material : Option Material) : List Part :=
  let w : ℚ := spec.w * UNIT
  let d : ℚ := spec.d * UNIT
  let ox := (w - UNIT) / 2
  let oz := (d - UNIT) / 2
  (List.range spec.w).flatMap (fun (x : Nat) =>
    (List.range spec.d).map (fun (z : Nat) =>
      { geometry :=
          (getStud h).apply
            (Transform.translate (-ox + (x : ℚ) * UNIT) 0 (-oz + (z : ℚ) * UNIT)),
        material := material }))

/-- The method `buildStandardPart`. -/
def buildStandardPart (spec : Spec) (includeStuds : Bool) : List Part :=
  let w : ℚ := spec.w * UNIT
  let d : ℚ := spec.d * UNIT
  let h := spec.h
  let body :=
    (((Geometry.new (Shape.roundedBox (w - GAP) h (d - GAP) SEGMENTS (1 / 2))).apply
      (Transform.translate 0 (h / 2) 0))).deleteUv
  let parts : List Part := [{ geometry := body, material := none }]
  if includeStuds then parts ++ studLoop spec h none else parts

/-- An object literal `{w, d, h}` passed to `buildStandardPart`, which reads
no other field. -/
def baseSpec (w d : Nat) (h : ℚ) : Spec :=
  { id := "", type := "", w := w, d := d, h := h, builder := none }

/-- The array `treeParts` of `buildTree`. -/
def buildTreeParts : List Part :=
  let baseParts := buildStandardPart (baseSpec 2 2 24) true
  let treeParts : List Part :=
    baseParts.map (fun p => { geometry := p.geometry, material := some (getMaterial 0x8B4513) })
  let trunkGeo :=
    ((Geometry.new (Shape.cylinder (UNIT / 3) (UNIT / 3) 40 10)).deleteUv).apply
      (Transform.translate 0 (24 + 40 / 2) 0)
  let topGeo :=
    ((Geometry.new (Shape.cone (UNIT * (3 / 2)) 60 16)).deleteUv).apply
      (Transform.translate 0 (24 + 40 + 60 / 2) 0)
  treeParts ++
    [{ geometry := trunkGeo, material := some (getMaterial 0x8B4513) },
     { geometry := topGeo, material := some (getMaterial 0x228b22) }]

/-- The outline `leafShape` of `buildFlower`. -/
def leafShape : List PathCmd :=
  [PathCmd.moveTo 0 0, PathCmd.bezierCurveTo 4 5 10 5 12 0,
   PathCmd.bezierCurveTo 10 (-5) 4 (-5) 0 0]

/-- The array `flowerParts` of `buildFlower`. -/
def buildFlowerParts : List Part :=
  let baseParts := buildStandardPart (baseSpec 1 1 8) true
  let green := some (getMaterial 0x228b22)
  let flowerParts : List Part :=
    baseParts.map (fun p => { geometry := p.geometry, material := green })
  let stemGeo :=
    ((Geometry.new (Shape.cylinder (3 / 2) (3 / 2) 20 8)).deleteUv).apply
      (Transform.translate 0 (8 + 20 / 2) 0)
  let leaf := Geometry.new (Shape.extrude leafShape (1 / 2) none)
  let leaf1Geo :=
    (((leaf.apply (Transform.rotateX (1 / 2))).apply (Transform.rotateY (1 / 4))).apply
      (Transform.scale (3 / 10) (3 / 10) (3 / 10))).apply (Transform.translate (-2) (8 + 15) 0)
  let leaf2Geo :=
    (((leaf.apply (Transform.rotateX (1 / 2))).apply (Transform.rotateY (-3 / 4))).apply
      (Transform.scale (3 / 10) (3 / 10) (3 / 10))).apply (Transform.translate 2 (8 + 10) 0)
  let petals : List Part :=
    (List.range 10).map (fun (i : Nat) =>
      { geometry :=
          (((Geometry.new (Shape.box 10 4 1)).apply (Transform.translate 5 0 0)).apply
            (Transform.rotateZ ((i : ℚ) / 5))).apply (Transform.translate 0 (8 + 20 + 2) 0),
        material := none })
  let centerGeo :=
    ((Geometry.new (Shape.sphere (5 / 2) 10 10)).deleteUv).apply
      (Transform.translate 0 (8 + 20 + 2 + 1 / 2) 0)
  flowerParts ++
    [{ geometry := stemGeo, material := green },
     { geometry := leaf1Geo, material := green },
     { geometry := leaf2Geo, material := green }] ++
    petals ++
    [{ geometry := centerGeo, material := some (getMaterial 0xFFC300) }]

/-- The array `slopeParts` of `buildSlope`. -/
def buildSlopeParts (spec : Spec) : List Part :=
  let w : ℚ := spec.w * UNIT
  let d : ℚ := spec.d * UNIT
  let h := spec.h
  let roofThickness : ℚ := 8
  let baseHeight := h - roofThickness
  let base : List Part :=
    if baseHeight > 0 then
      [{ geometry :=
           (Geometry.new (Shape.roundedBox (w - GAP) baseHeight (d - GAP) SEGMENTS (1 / 2))).apply
             (Transform.translate 0 (baseHeight / 2) 0),
         material := none }]
    else []
  let shape : List PathCmd :=
    [PathCmd.moveTo 0 0, PathCmd.lineTo w 0, PathCmd.lineTo 0 roofThickness, PathCmd.lineTo 0 0]
  let roofGeo :=
    (Geometry.new (Shape.extrude shape (d - GAP) (some (1, 1 / 2, 1 / 2)))).apply
      (Transform.translate (-w / 2) baseHeight (-(d - GAP) / 2))
  base ++ [{ geometry := roofGeo, material := none }] ++ studLoop spec baseHeight none

/-- The array `slopeParts` of `buildInverseSlope`. -/
def buildInverseSlopeParts (spec : Spec) : List Part :=
  let w : ℚ := spec.w * UNIT
  let d : ℚ := spec.d * UNIT
  let h := spec.h
  let roofThickness : ℚ := 8
  let baseHeight := h - roofThickness
  let base : List Part :=
    if baseHeight > 0 then
      [{ geometry :=
           (Geometry.new (Shape.roundedBox (w - GAP) baseHeight (d - GAP) SEGMENTS (1 / 2))).apply
             (Transform.translate 0 (baseHeight / 2) 0),
         material := none }]
    else []
  let shape : List PathCmd :=
    [PathCmd.moveTo 0 0, PathCmd.lineTo w 0, PathCmd.lineTo w roofThickness,
     PathCmd.lineTo 0 roofThickness, PathCmd.lineTo 0 0]
  let invSlopeGeo :=
    (Geometry.new (Shape.extrude shape (d - GAP) (some (1, 1 / 2, 1 / 2)))).apply
      (Transform.translate (-w / 2) baseHeight (-(d - GAP) / 2))
  base ++ [{ geometry := invSlopeGeo, material := none }] ++ studLoop spec h none

/-- The array `doorParts` of `buildDoor`. -/
def buildDoorParts (spec : Spec) : List Part :=
  let w : ℚ := spec.w * UNIT
  let d : ℚ := spec.d * UNIT
  let h := spec.h
  let frameThickness : ℚ := 4
  let panelThickness : ℚ := 2
  let panelColor := 0x8B4513
  let frameOuterW := w
  let frameOuterH := h
  let frameOuterD := d
  let innerOpeningW := frameOuterW - 2 * frameThickness
  let innerOpeningH := frameOuterH - 2 * frameThickness - STUD_H
  let frameMat : Option Material := none
  let sideBeamGeo :=
    (Geometry.new (Shape.roundedBox frameThickness frameOuterH frameOuterD SEGMENTS (1 / 2))).apply
      (Transform.translate (-frameOuterW / 2 + frameThickness / 2) (frameOuterH / 2) 0)
  let sideBeamGeo2 := sideBeamGeo.apply (Transform.translate (frameOuterW - frameThickness) 0 0)
  let topBeamGeo :=
    (Geometry.new (Shape.roundedBox (innerOpeningW + frameThickness) frameThickness frameOuterD
      SEGMENTS (1 / 2))).apply (Transform.translate 0 (frameOuterH - frameThickness / 2) 0)
  let bottomLipGeo :=
    (Geometry.new (Shape.roundedBox frameOuterW frameThickness frameOuterD SEGMENTS (1 / 2))).apply
      (Transform.translate 0 (frameThickness / 2) 0)
  let doorW := innerOpeningW - 2
  let doorH := innerOpeningH - 2
  let doorZ := frameOuterD / 2 - panelThickness / 2 - frameThickness
  let doorPanelGeo :=
    ((Geometry.new (Shape.roundedBox doorW doorH panelThickness SEGMENTS (1 / 2))).apply
      (Transform.translate 0 (frameThickness + innerOpeningH / 2) 0)).apply
      (Transform.translate 0 0 doorZ)
  let plankThickness := doorW / 4
  let planks : List Part :=
    ([-3 / 2, -1 / 2, 1 / 2, 3 / 2] : List ℚ).map (fun i =>
      { geometry :=
          ((Geometry.new (Shape.box (1 / 2) doorH panelThickness)).apply
            (Transform.translate (i * plankThickness) (frameThickness + innerOpeningH / 2) 0)).apply
            (Transform.translate 0 0 (doorZ - 1 / 10)),
        material := some (getMaterial panelColor) })
  let knobColor := 0xDAA520
  let knobGeo :=
    ((Geometry.new (Shape.box 1 8 3)).apply (Transform.rotateZ (1 / 2))).apply
      (Transform.translate (innerOpeningW / 2 - 5) (frameOuterH / 2) (doorZ - 2))
  [{ geometry := sideBeamGeo, material := frameMat },
   { geometry := sideBeamGeo2, material := frameMat },
   { geometry := topBeamGeo, material := frameMat },
   { geometry := bottomLipGeo, material := frameMat }] ++
  planks ++
  [{ geometry := doorPanelGeo, material := some (getMaterial panelColor) },
   { geometry := knobGeo, material := some (getMaterial knobColor) }] ++
  studLoop spec h frameMat

/-- The array `windowParts` of `buildWindow`. -/
def buildWindowParts (spec : Spec) : List Part :=
  let w : ℚ := spec.w * UNIT
  let d : ℚ := spec.d * UNIT
  let h := spec.h
  let frameThickness : ℚ := 4
  let glassThickness : ℚ := 3 / 2
  let mullionThickness : ℚ := 3
  let frameOuterW := w
  let frameOuterH := h
  let frameOuterD := d
  let innerOpeningW := frameOuterW - 2 * frameThickness
  let innerOpeningH := frameOuterH - 2 * frameThickness - STUD_H
  let frameMat : Option Material := none
  let topBeamGeo :=
    (Geometry.new (Shape.roundedBox frameOuterW frameThickness frameOuterD SEGMENTS (1 / 2))).apply
      (Transform.translate 0 (frameOuterH - frameThickness / 2) 0)
  let bottomBeamGeo :=
    (Geometry.new (Shape.roundedBox frameOuterW frameThickness frameOuterD SEGMENTS (1 / 2))).apply
      (Transform.translate 0 (frameThickness / 2) 0)
  let sideBeamGeo :=
    (Geometry.new (Shape.roundedBox frameThickness innerOpeningH frameOuterD SEGMENTS (1 / 2))).apply
      (Transform.translate (-frameOuterW / 2 + frameThickness / 2)
        (frameThickness + innerOpeningH / 2) 0)
  let sideBeamGeo2 := sideBeamGeo.apply (Transform.translate (frameOuterW - frameThickness) 0 0)
  let glassW := innerOpeningW - 2
  let glassH := innerOpeningH - 2
  let glassGeo :=
    (Geometry.new (Shape.box glassW glassH glassThickness)).apply
      (Transform.translate 0 (frameThickness + innerOpeningH / 2) 0)
  let mullionVGeo :=
    (Geometry.new (Shape.box mullionThickness (glassH + 1) (frameOuterD + 1 / 2))).apply
      (Transform.translate 0 (frameThickness + innerOpeningH / 2) 0)
  let mullionHGeo :=
    (Geometry.new (Shape.box (glassW + 1) mullionThickness (frameOuterD + 1 / 2))).apply
      (Transform.translate 0 (frameThickness + innerOpeningH / 2) 0)
  [{ geometry := topBeamGeo, material := frameMat },
   { geometry := bottomBeamGeo, material := frameMat },
   { geometry := sideBeamGeo, material := frameMat },
   { geometry := sideBeamGeo2, material := frameMat },
   { geometry := glassGeo, material := some Material.glass },
   { geometry := mullionVGeo, material := frameMat },
   { geometry := mullionHGeo, material := frameMat }] ++
  studLoop spec h frameMat
/-! ## Geometry factory: batch merge and part construction -/

/-- The key `matKey` of `mergeCompoundGeometries`: the `uuid` of the material
of an entry, or the string `'default'` for the material `null`. -/
inductive MatKey where
  | default
  | uuid (material : Material)
  deriving DecidableEq

/-- The key of an entry. -/
def Part.matKey (p : Part) : MatKey :=
  match p.material with
  | some material => MatKey.uuid material
  | none => MatKey.default

/-- A value of the map `geoByMat`, with its key. -/
structure MatGroup where
  key : MatKey
  geometries : List Geometry
  material : Material
  deriving DecidableEq

/-- The map `geoByMat` after the first loop of `mergeCompoundGeometries`, in
insertion order: an entry with a new key opens a group whose material is the
entry material or, for `null`, `getMaterial(this.currentColor)`; the geometry
is pushed onto the group of its key. -/
def geoByMat (currentColor : Nat) (parts : List Part) : List MatGroup :=
  parts.foldl
    (fun groups p =>
      let matKey := p.matKey
      let groups1 :=
        if groups.any (fun g => decide (g.key = matKey)) then groups
        else groups ++
          [{ key := matKey, geometries := [],
             material := match p.material with
               | some material => material
               | none => getMaterial currentColor }]
      groups1.map (fun g =>
        if g.key = matKey then { g with geometries := g.geometries ++ [p.geometry] } else g))
    []

/-- A child mesh of the group `mergedObjects`: the geometries it draws (one
buffer merged from all of them when `merged`, else a single sub-shape), its
material, and whether it carries an outline overlay. -/
structure RenderUnit where
  geometries : List Geometry
  merged : Bool
  material : Material
  edges : Bool
  deriving DecidableEq

/-- Whether `BufferGeometryUtils.mergeGeometries` returns a geometry for a
list.  The library takes the attribute names and the presence of an index from
the first geometry and returns `null` as soon as a geometry differs in either.
Every geometry of this program is non-indexed and has no morph attributes, and
its attributes are `position` and `normal`, with `uv` unless it was deleted; so
the merge succeeds exactly when all geometries agree with the first on `uv`.
On the empty list the library reads a field of `undefined` and throws. -/
def mergeGeometriesOk : List Geometry → Bool
  | [] => false
  | first :: rest => rest.all (fun g => g.uv == first.uv)

/-- The method `mergeCompoundGeometries`; the result lists the children of
`mergedObjects`, which the returned invisible wrapper mesh holds.
`mergeOk geometries` tells whether the `try` block runs through for that list
(`BufferGeometryUtils.mergeGeometries` is library code: on incompatible
attributes it returns `null`, and the next statement throws); otherwise the
`catch` adds one plain mesh per geometry.  With the library as it is, `mergeOk`
is `mergeGeometriesOk`. -/
def mergeCompoundGeometries (mergeOk : List Geometry → Bool) (currentColor : Nat)
    (parts : List Part) : List RenderUnit :=
  (geoByMat currentColor parts).foldl
    (fun mergedObjects g =>
      if g.geometries.length > 0 then
        if mergeOk g.geometries then
          mergedObjects ++
            [{ geometries := g.geometries, merged := true, material := g.material,
               edges := decide (g.material ≠ Material.glass) }]
        else
          g.geometries.foldl
            (fun acc geo =>
              acc ++ [{ geometries := [geo], merged := false, material := g.material,
                        edges := false }])
            mergedObjects
      else mergedObjects)
    []

/-- The method `buildTree`. -/
def buildTree (mergeOk : List Geometry → Bool) (currentColor : Nat) : List RenderUnit :=
  mergeCompoundGeometries mergeOk currentColor buildTreeParts

/-- The method `buildFlower`. -/
def buildFlower (mergeOk : List Geometry → Bool) (currentColor : Nat) : List RenderUnit :=
  mergeCompoundGeometries mergeOk currentColor buildFlowerParts

/-- The method `buildSlope`. -/
def buildSlope (mergeOk : List Geometry → Bool) (currentColor : Nat) (spec : Spec) :
    List RenderUnit :=
  mergeCompoundGeometries mergeOk currentColor (buildSlopeParts spec)

/-- The method `buildInverseSlope`. -/
def buildInverseSlope (mergeOk : List Geometry → Bool) (currentColor : Nat) (spec : Spec) :
    List RenderUnit :=
  mergeCompoundGeometries mergeOk currentColor (buildInverseSlopeParts spec)

/-- The method `buildDoor`. -/
def buildDoor (mergeOk : List Geometry → Bool) (currentColor : Nat) (spec : Spec) :
    List RenderUnit :=
  mergeCompoundGeometries mergeOk currentColor (buildDoorParts spec)

/-- The method `buildWindow`. -/
def buildWindow (mergeOk : List Geometry → Bool) (currentColor : Nat) (spec : Spec) :
    List RenderUnit :=
  mergeCompoundGeometries mergeOk currentColor (buildWindowParts spec)

/-- What `getLegoPart` returns: the merged geometry of a simple part (the
list of the geometries merged into it), or the wrapper mesh of a compound part
(the list of its render units). -/
inductive LegoPart where
  | geometry (merged : List Geometry)
  | compound (units : List RenderUnit)
  deriving DecidableEq

/-- The map `geoCache`: keys `spec.id + '_' + currentColor`, kept as pairs. -/
abbrev GeoCache := List ((String × Nat) × List Geometry)

/-- The method `getLegoPart`, with the cache it leaves.  The result is `none`
when the call gives no drawable: for a simple part whose merge fails
(`geo` is `null` and `geo.computeVertexNormals()` throws, nothing catches it),
and for a compound spec with an unknown builder (the method returns
`undefined`). -/
def getLegoPart (mergeOk : List Geometry → Bool) (geoCache : GeoCache) (currentColor : Nat)
    (spec : Spec) : Option (LegoPart × GeoCache) :=
  let key := (spec.id, currentColor)
  if spec.type = "compound" then
    if spec.builder = some "buildTree" then
      some (LegoPart.compound (buildTree mergeOk currentColor), geoCache)
    else if spec.builder = some "buildFlower" then
      some (LegoPart.compound (buildFlower mergeOk currentColor), geoCache)
    else if spec.builder = some "buildDoor" then
      some (LegoPart.compound (buildDoor mergeOk currentColor spec), geoCache)
    else if spec.builder = some "buildWindow" then
      some (LegoPart.compound (buildWindow mergeOk currentColor spec), geoCache)
    else if spec.builder = some "buildSlope" then
      some (LegoPart.compound (buildSlope mergeOk currentColor spec), geoCache)
    else if spec.builder = some "buildInverseSlope" then
      some (LegoPart.compound (buildInverseSlope mergeOk currentColor spec), geoCache)
    else none
  else
    match geoCache.lookup key with
    | some geo => some (LegoPart.geometry geo, geoCache)
    | none =>
      let parts := buildStandardPart spec true
      let geometries := parts.map (fun p => p.geometry)
      if mergeOk geometries then
        some (LegoPart.geometry geometries, geoCache ++ [(key, geometries)])
      else none

/-- The object `mesh` that `addBrick` puts into the scene: for a compound
part the wrapper with its render units, for a simple part one mesh of the
merged geometry with the material of the color. -/
inductive PlacedDrawable where
  | compound (units : List RenderUnit)
  | simple (geometry : List Geometry) (material : Material)
  deriving DecidableEq

/-- The traversal of `addBrick` over a compound mesh: a child mesh whose
material is not the glass and has the `uuid` of
`getMaterial(this.currentColor)` gets `getMaterial(color)`. -/
def recolor (currentColor color : Nat) (units : List RenderUnit) : List RenderUnit :=
  units.map (fun child =>
    if child.material ≠ Material.glass then
      if child.material = getMaterial currentColor then
        { child with material := getMaterial color }
      else child
    else child)

/-- The first part of `addBrick` (up to the assignment of `mesh`): the
drawable it builds for `data`, or for the active spec and color without
`data`.  The result is `none` when the call throws there, and when
`data.specId` is one of `inheritedKeys` (the drawable of an inherited member
is not represented). -/
def addBrickMesh (mergeOk : List Geometry → Bool) (geoCache : GeoCache) (s : App)
    (data : Option BrickData) : Option PlacedDrawable :=
  let found := match data with
    | some dt => specs dt.specId
    | none => some s.currentSpec
  match found with
  | none => none
  | some spec =>
    let color := match data with
      | some dt => dt.color
      | none => s.currentColor
    if spec.type = "compound" then
      match getLegoPart mergeOk geoCache s.currentColor spec with
      | some (LegoPart.compound units, _) =>
        some (PlacedDrawable.compound (recolor s.currentColor color units))
      | _ => none
    else
      match getLegoPart mergeOk geoCache s.currentColor spec with
      | some (LegoPart.geometry geo, _) => some (PlacedDrawable.simple geo (getMaterial color))
      | _ => none

/-! ## Notions used to state the geometry properties -/

/-- A stud: the cylinder of `getStud`. -/
def Geometry.isStud (g : Geometry) : Bool :=
  decide (g.shape = Shape.cylinder STUD_R STUD_R STUD_H 12)

/-- The material a sub-shape is meant to be drawn with: its fixed material,
or the cached material of the given color for `null`. -/
def Part.effectiveMaterial (color : Nat) (p : Part) : Material :=
  match p.material with
  | some material => material
  | none => getMaterial color

/-- The keys of a list in order of first appearance. -/
def firstKeys : List MatKey → List MatKey
  | [] => []
  | k :: ks => k :: (firstKeys ks).filter (fun k1 => decide (k1 ≠ k))

/-- The material of the group of a key. -/
def MatKey.material (currentColor : Nat) : MatKey → Material
  | MatKey.default => getMaterial currentColor
  | MatKey.uuid material => material

/-- The geometries of the entries with a given key, in order. -/
def geometriesOf (parts : List Part) (k : MatKey) : List Geometry :=
  (parts.filter (fun p => decide (p.matKey = k))).map (fun p => p.geometry)

/-- The render units that a group contributes: one merged unit when its
merge succeeds, one unmerged unit per sub-shape, in order, when it fails. -/
def unitsOfGroup (mergeOk : List Geometry → Bool) (g : MatGroup) : List RenderUnit :=
  if mergeOk g.geometries then
    [{ geometries := g.geometries, merged := true, material := g.material,
       edges := decide (g.material ≠ Material.glass) }]
  else
    g.geometries.map (fun geo =>
      { geometries := [geo], merged := false, material := g.material, edges := false })

/-- The sub-shape list that `getLegoPart` has the builder of a compound spec
hand to `mergeCompoundGeometries`, by the builder name as in the dispatch of
`getLegoPart`. -/
def builderParts (spec : Spec) : List Part :=
  if spec.builder = some "buildTree" then buildTreeParts
  else if spec.builder = some "buildFlower" then buildFlowerParts
  else if spec.builder = some "buildDoor" then buildDoorParts spec
  else if spec.builder = some "buildWindow" then buildWindowParts spec
  else if spec.builder = some "buildSlope" then buildSlopeParts spec
  else if spec.builder = some "buildInverseSlope" then buildInverseSlopeParts spec
  else []

/-- A list for a direct call of `mergeCompoundGeometries`: the body and the
stud of a 1x1 base, with the material `null` as `buildStandardPart` returns
them, and one more stud with the cached material of forest green. -/
def activeColorParts : List Part :=
  buildStandardPart (baseSpec 1 1 8) true ++
    [{ geometry := getStud 8, material := some (getMaterial 0x228b22) }]

/-! ## Snapping -/

theorem snap_even (val : ℚ) (dim : Nat) (h : dim % 2 = 0) :
    snap val dim = (mathRound (val / UNIT) : ℚ) * 20 := by
  simp [snap, h, UNIT]

theorem snap_odd (val : ℚ) (dim : Nat) (h : dim % 2 = 1) :
    snap val dim = (⌊val / UNIT⌋ : ℚ) * 20 + 10 := by
  simp [snap, h, UNIT]
  norm_num

theorem calcSnap_x (s : App) (hit : Hit) (f : Face) (n : Vec3)
    (hf : hit.face = some f) (hn : f.normal = some n) :
    (calcSnap s hit).x =
      snap (hit.point.x + n.x * (1 / 10)) (calcSnapDims s.currentSpec s.rotation).1 := by
  simp [calcSnap, hf, hn]

theorem calcSnap_z (s : App) (hit : Hit) (f : Face) (n : Vec3)
    (hf : hit.face = some f) (hn : f.normal = some n) :
    (calcSnap s hit).z =
      snap (hit.point.z + n.z * (1 / 10)) (calcSnapDims s.currentSpec s.rotation).2 := by
  simp [calcSnap, hf, hn]

theorem calcSnap_y (s : App) (hit : Hit) (f : Face) (n : Vec3)
    (hf : hit.face = some f) (hn : f.normal = some n) :
    (calcSnap s hit).y =
      match hit.object with
      | HitObject.brick mesh =>
        if n.y > 1 / 2 then mesh.userData.box.max.y else mesh.userData.box.min.y
      | HitObject.plane => 0 := by
  simp [calcSnap, hf, hn]

/-- C1: for a hit with a face normal, each horizontal coordinate returned by
`calcSnap` is an integer multiple of 20 when the rotation-adjusted footprint
dimension on that axis is even, and an integer multiple of 20 plus 10 when it
is odd. -/
theorem calcSnap_quantizes_by_parity (s : App) (hit : Hit) (f : Face) (n : Vec3)
    (hf : hit.face = some f) (hn : f.normal = some n) :
    ((calcSnapDims s.currentSpec s.rotation).1 % 2 = 0 →
        ∃ k : ℤ, (calcSnap s hit).x = (k : ℚ) * 20) ∧
    ((calcSnapDims s.currentSpec s.rotation).1 % 2 = 1 →
        ∃ k : ℤ, (calcSnap s hit).x = (k : ℚ) * 20 + 10) ∧
    ((calcSnapDims s.currentSpec s.rotation).2 % 2 = 0 →
        ∃ k : ℤ, (calcSnap s hit).z = (k : ℚ) * 20) ∧
    ((calcSnapDims s.currentSpec s.rotation).2 % 2 = 1 →
        ∃ k : ℤ, (calcSnap s hit).z = (k : ℚ) * 20 + 10) := by
  rw [calcSnap_x s hit f n hf hn, calcSnap_z s hit f n hf hn]
  refine ⟨fun h => ⟨_, snap_even _ _ h⟩, fun h => ⟨_, snap_odd _ _ h⟩,
    fun h => ⟨_, snap_even _ _ h⟩, fun h => ⟨_, snap_odd _ _ h⟩⟩

theorem calcSnap_quantizes_by_parity_witness :
    ((calcSnapDims App.initial.currentSpec App.initial.rotation).1 % 2 = 0 →
        ∃ k : ℤ, (calcSnap App.initial groundHit).x = (k : ℚ) * 20) ∧
    ((calcSnapDims App.initial.currentSpec App.initial.rotation).1 % 2 = 1 →
        ∃ k : ℤ, (calcSnap App.initial groundHit).x = (k : ℚ) * 20 + 10) ∧
    ((calcSnapDims App.initial.currentSpec App.initial.rotation).2 % 2 = 0 →
        ∃ k : ℤ, (calcSnap App.initial groundHit).z = (k : ℚ) * 20) ∧
    ((calcSnapDims App.initial.currentSpec App.initial.rotation).2 % 2 = 1 →
        ∃ k : ℤ, (calcSnap App.initial groundHit).z = (k : ℚ) * 20 + 10) :=
  calcSnap_quantizes_by_parity App.initial groundHit ⟨some ⟨0, 1, 0⟩⟩ ⟨0, 1, 0⟩ rfl rfl

/-! ## Rotation-adjusted footprint -/

/-- C2: for every spec and rotation quadrant, `calcSnap`, `checkCollision` and
the occupied-volume derivation of `addBrick` use the footprint `(w, d)` when
the quadrant is even and `(d, w)` when it is odd (the latter two in world
units, times 20), so the three agree; the door has footprint `(1, 4)` at
quadrant 0 and `(4, 1)` at quadrant 1. -/
theorem effective_footprint_by_quadrant (spec : Spec) (q : Nat) :
    calcSnapDims spec q = (if q % 2 = 0 then (spec.w, spec.d) else (spec.d, spec.w)) ∧
    checkCollisionDims spec q =
      (if q % 2 = 0 then ((spec.w : ℚ) * 20, (spec.d : ℚ) * 20)
       else ((spec.d : ℚ) * 20, (spec.w : ℚ) * 20)) ∧
    addBrickDims spec q =
      (if q % 2 = 0 then ((spec.w : ℚ) * 20, (spec.d : ℚ) * 20)
       else ((spec.d : ℚ) * 20, (spec.w : ℚ) * 20)) ∧
    checkCollisionDims spec q =
      (((calcSnapDims spec q).1 : ℚ) * 20, ((calcSnapDims spec q).2 : ℚ) * 20) ∧
    addBrickDims spec q = checkCollisionDims spec q ∧
    (specs "door").map (fun door => (door.w, door.d)) = some (1, 4) ∧
    (specs "door").map (fun door => calcSnapDims door 0) = some (1, 4) ∧
    (specs "door").map (fun door => calcSnapDims door 1) = some (4, 1) := by
  refine ⟨?_, ?_, ?_, ?_, ?_, ?_, ?_, ?_⟩
  · rcases Nat.mod_two_eq_zero_or_one q with h | h <;> simp [calcSnapDims, h]
  · rcases Nat.mod_two_eq_zero_or_one q with h | h <;> simp [checkCollisionDims, h, UNIT]
  · rcases Nat.mod_two_eq_zero_or_one q with h | h <;> simp [addBrickDims, h, UNIT]
  · rcases Nat.mod_two_eq_zero_or_one q with h | h <;>
      simp [calcSnapDims, checkCollisionDims, h, UNIT]
  · rfl
  · simp [specs, CATALOG]
  · simp [specs, CATALOG, calcSnapDims]
  · simp [specs, CATALOG, calcSnapDims]

/-! ## Collision -/

theorem checkCollisionBox_eq (s : App) (pos : Vec3) :
    (checkCollisionBox s.currentSpec s.rotation pos).min =
        ⟨(candidateVolume s pos).min.x + 1 / 2, (candidateVolume s pos).min.y + 1 / 2,
         (candidateVolume s pos).min.z + 1 / 2⟩ ∧
    (checkCollisionBox s.currentSpec s.rotation pos).max =
        ⟨(candidateVolume s pos).max.x - 1 / 2, (candidateVolume s pos).max.y - 1 / 2,
         (candidateVolume s pos).max.z - 1 / 2⟩ := by
  simp [checkCollisionBox, candidateVolume, addBrickBox, checkCollisionDims, addBrickDims]

theorem checkCollision_eq_true_iff (s : App) (pos : Vec3) :
    checkCollision s pos = true ↔
      ∀ b ∈ s.collisionBoxes,
        (checkCollisionBox s.currentSpec s.rotation pos).intersectsBox b = false := by
  simp [checkCollision, List.any_eq_true]

theorem checkCollision_eq_false_iff (s : App) (pos : Vec3) :
    checkCollision s pos = false ↔
      ∃ b ∈ s.collisionBoxes,
        (checkCollisionBox s.currentSpec s.rotation pos).intersectsBox b = true := by
  simp [checkCollision, List.any_eq_true]

theorem intersectsBox_eq_false_iff (a b : Box3) :
    a.intersectsBox b = false ↔
      (b.max.x < a.min.x ∨ b.min.x > a.max.x ∨ b.max.y < a.min.y ∨ b.min.y > a.max.y ∨
       b.max.z < a.min.z ∨ b.min.z > a.max.z) := by
  unfold Box3.intersectsBox
  split_ifs with h
  · simp only [true_iff]; exact h
  · simp only [Bool.true_eq_false, false_iff]; exact h

theorem intersectsBox_eq_true_iff (a b : Box3) :
    a.intersectsBox b = true ↔
      (a.min.x ≤ b.max.x ∧ b.min.x ≤ a.max.x) ∧ (a.min.y ≤ b.max.y ∧ b.min.y ≤ a.max.y) ∧
      (a.min.z ≤ b.max.z ∧ b.min.z ≤ a.max.z) := by
  simp only [Box3.intersectsBox, gt_iff_lt]
  split_ifs with h
  · simp only [Bool.false_eq_true, false_iff]
    intro hc
    rcases h with h | h | h | h | h | h <;> linarith [hc.1.1, hc.1.2, hc.2.1.1, hc.2.1.2, hc.2.2.1, hc.2.2.2]
  · simp only [not_or, not_lt] at h
    simp only [true_iff]
    exact ⟨⟨h.1, h.2.1⟩, ⟨h.2.2.1, h.2.2.2.1⟩, ⟨h.2.2.2.2.1, h.2.2.2.2.2⟩⟩

/-- C3: if every stored occupied volume is apart from the candidate full
occupied volume on at least one axis (disjoint or sharing only a boundary
point there), `checkCollision` reports the placement valid. -/
theorem checkCollision_valid_of_apart (s : App) (pos : Vec3)
    (h : ∀ b ∈ s.collisionBoxes, (candidateVolume s pos).apartOnSomeAxis b) :
    checkCollision s pos = true := by
  rw [checkCollision_eq_true_iff]
  intro b hb
  rw [intersectsBox_eq_false_iff]
  obtain ⟨hmin, hmax⟩ := checkCollisionBox_eq s pos
  rw [hmin, hmax]
  simp only [gt_iff_lt]
  rcases h b hb with hx | hy | hz
  · rcases hx with hx | hx
    · right; left; linarith
    · left; linarith
  · rcases hy with hy | hy
    · right; right; right; left; linarith
    · right; right; left; linarith
  · rcases hz with hz | hz
    · right; right; right; right; right; linarith
    · right; right; right; right; left; linarith


theorem oneBrickScene_collisionBoxes :
    oneBrickScene.collisionBoxes = [⟨1, ⟨-20, 0, -40⟩, ⟨20, 24, 40⟩⟩] := by
  simp [oneBrickScene, addBrick, App.initial, save, addBrickBox, addBrickDims, UNIT]
  norm_num

theorem oneBrickScene_pending :
    oneBrickScene.currentSpec = ⟨"b2x4", "brick", 2, 4, 24, none⟩ ∧
    oneBrickScene.rotation = 0 := by
  simp [oneBrickScene, addBrick, App.initial, save]

theorem checkCollision_valid_of_apart_witness :
    checkCollision oneBrickScene ⟨40, 0, 0⟩ = true :=
  checkCollision_valid_of_apart oneBrickScene ⟨40, 0, 0⟩ (by
    intro b hb
    rw [oneBrickScene_collisionBoxes] at hb
    simp only [List.mem_singleton] at hb
    subst hb
    left; right
    simp [candidateVolume, addBrickBox, addBrickDims, oneBrickScene_pending, UNIT]
    norm_num)

/-- C4 as stated fails: the 2x4 brick pending at `(39.8, 0, 0)` overlaps the
brick stored at the origin on all three axes (by 0.2, 24 and 80), and
`checkCollision` reports the placement valid. -/
theorem checkCollision_tolerates_shallow_overlap :
    (∃ b ∈ oneBrickScene.collisionBoxes,
        (candidateVolume oneBrickScene ⟨199 / 5, 0, 0⟩).overlapsOnAllAxes b) ∧
    checkCollision oneBrickScene ⟨199 / 5, 0, 0⟩ = true := by
  constructor
  · refine ⟨⟨1, ⟨-20, 0, -40⟩, ⟨20, 24, 40⟩⟩, by simp [oneBrickScene_collisionBoxes], ?_⟩
    simp [Box3.overlapsOnAllAxes, overlapLength, candidateVolume, addBrickBox, addBrickDims,
      oneBrickScene_pending, UNIT]
    norm_num
  · rw [checkCollision_eq_true_iff, oneBrickScene_collisionBoxes]
    intro b hb
    simp only [List.mem_singleton] at hb
    subst hb
    rw [intersectsBox_eq_false_iff]
    left
    simp [checkCollisionBox, checkCollisionDims, oneBrickScene_pending, UNIT]
    norm_num

/-- C4, amended: if a stored occupied volume reaches, on all three axes, the
candidate full occupied volume shrunk by the margin 0.5 on every face, then
`checkCollision` reports the placement invalid. -/
theorem checkCollision_invalid_of_overlap_beyond_margin (s : App) (pos : Vec3) (b : Box3)
    (hb : b ∈ s.collisionBoxes)
    (h : (candidateVolume s pos).reachesWithin b (1 / 2)) :
    checkCollision s pos = false := by
  rw [checkCollision_eq_false_iff]
  refine ⟨b, hb, ?_⟩
  rw [intersectsBox_eq_true_iff]
  obtain ⟨hmin, hmax⟩ := checkCollisionBox_eq s pos
  rw [hmin, hmax]
  obtain ⟨⟨h1, h2⟩, ⟨h3, h4⟩, ⟨h5, h6⟩⟩ := h
  exact ⟨⟨h1, h2⟩, ⟨h3, h4⟩, ⟨h5, h6⟩⟩

theorem checkCollision_invalid_of_overlap_beyond_margin_witness :
    checkCollision oneBrickScene ⟨20, 0, 0⟩ = false :=
  checkCollision_invalid_of_overlap_beyond_margin oneBrickScene ⟨20, 0, 0⟩
    ⟨1, ⟨-20, 0, -40⟩, ⟨20, 24, 40⟩⟩
    (by simp [oneBrickScene_collisionBoxes])
    (by
      simp [Box3.reachesWithin, candidateVolume, addBrickBox, addBrickDims,
        oneBrickScene_pending, UNIT]
      norm_num)

/-- C5: from a state with an empty registry, the 2x4 brick active at quadrant
0 and the ghost at `(0, 0, 0)`, `addBrick` succeeds, and afterwards
`checkCollision` rejects `(0, 0, 0)` and accepts `(40, 0, 0)` for the same
spec and rotation. -/
theorem scenario_same_place_rejected_next_place_accepted (s : App) (newId : ℚ)
    (hreg : s.collisionBoxes = [])
    (hspec : specs "b2x4" = some s.currentSpec)
    (hrot : s.rotation = 0)
    (hghost : s.ghostPosition = ⟨0, 0, 0⟩) :
    ∃ s1, addBrick s none newId = some s1 ∧
      checkCollision s1 ⟨0, 0, 0⟩ = false ∧ checkCollision s1 ⟨40, 0, 0⟩ = true := by
  simp [specs, CATALOG] at hspec
  refine ⟨_, rfl, ?_, ?_⟩
  · simp [checkCollision, checkCollisionBox, checkCollisionDims, Box3.intersectsBox, save,
      addBrickBox, addBrickDims, hreg, ← hspec, hrot, hghost, UNIT]
    norm_num
  · simp [checkCollision, checkCollisionBox, checkCollisionDims, Box3.intersectsBox, save,
      addBrickBox, addBrickDims, hreg, ← hspec, hrot, hghost, UNIT]
    norm_num

theorem scenario_same_place_rejected_next_place_accepted_witness :
    ∃ s1, addBrick App.initial none 1 = some s1 ∧
      checkCollision s1 ⟨0, 0, 0⟩ = false ∧ checkCollision s1 ⟨40, 0, 0⟩ = true :=
  scenario_same_place_rejected_next_place_accepted App.initial 1 rfl
    (by simp [specs, CATALOG, App.initial]) rfl rfl

/-- C6: for a hit with a face normal, the elevation that `calcSnap` returns is
0 on the ground plane, the top of the hit part occupied volume when the normal
points upward (its `y` exceeds 0.5), and the bottom of that volume when the
normal points downward (negative `y`). -/
theorem calcSnap_elevation (s : App) (hit : Hit) (f : Face) (n : Vec3)
    (hf : hit.face = some f) (hn : f.normal = some n) :
    (hit.object = HitObject.plane → (calcSnap s hit).y = 0) ∧
    (∀ mesh, hit.object = HitObject.brick mesh → n.y > 1 / 2 →
        (calcSnap s hit).y = mesh.userData.box.max.y) ∧
    (∀ mesh, hit.object = HitObject.brick mesh → n.y < 0 →
        (calcSnap s hit).y = mesh.userData.box.min.y) := by
  rw [calcSnap_y s hit f n hf hn]
  refine ⟨?_, ?_, ?_⟩
  · intro h; rw [h]
  · intro mesh h hup; rw [h]; exact if_pos hup
  · intro mesh h hdown
    rw [h]
    have hnot : ¬ (n.y > 1 / 2) := by linarith
    exact if_neg hnot

theorem calcSnap_elevation_witness :
    (topHit.object = HitObject.plane → (calcSnap oneBrickScene topHit).y = 0) ∧
    (∀ mesh, topHit.object = HitObject.brick mesh → (1 : ℚ) > 1 / 2 →
        (calcSnap oneBrickScene topHit).y = mesh.userData.box.max.y) ∧
    (∀ mesh, topHit.object = HitObject.brick mesh → (1 : ℚ) < 0 →
        (calcSnap oneBrickScene topHit).y = mesh.userData.box.min.y) :=
  calcSnap_elevation oneBrickScene topHit ⟨some ⟨0, 1, 0⟩⟩ ⟨0, 1, 0⟩ rfl rfl

/-! ## Array helpers -/

theorem jsIndexOf_eq_neg_one_iff {α : Type} [DecidableEq α] (xs : List α) (x : α) :
    jsIndexOf xs x = -1 ↔ x ∉ xs := by
  unfold jsIndexOf
  split_ifs with h
  · constructor
    · intro h1; exact h1.elim
    · intro h2; exact absurd h h2
  · simp [h]

theorem jsSplice1_jsIndexOf_of_mem {α : Type} [DecidableEq α] (xs ys : List α) (x : α)
    (h : x ∈ xs) : jsSplice1 ys (jsIndexOf xs x) = ys.eraseIdx (xs.indexOf x) := by
  have hlt : ¬ ((xs.indexOf x : Int) < 0) := by omega
  simp [jsSplice1, jsIndexOf, h, hlt]

theorem jsSplice1_self_of_mem {α : Type} [DecidableEq α] (xs : List α) (x : α)
    (h : x ∈ xs) : jsSplice1 xs (jsIndexOf xs x) = xs.erase x := by
  rw [jsSplice1_jsIndexOf_of_mem xs xs x h, List.eraseIdx_indexOf_eq_erase]

theorem map_erase_of_nodup {α β : Type} [DecidableEq α] [DecidableEq β] (f : α → β) :
    ∀ (l : List α) (a : α), (l.map f).Nodup → a ∈ l →
      (l.map f).erase (f a) = (l.erase a).map f
  | [], _, _, h => by simp at h
  | x :: l, a, hnd, hmem => by
    by_cases hx : x = a
    · subst hx
      simp
    · have hmem2 : a ∈ l := by
        rcases List.mem_cons.mp hmem with h | h
        · exact absurd h.symm hx
        · exact h
      have hnd2 := List.nodup_cons.mp hnd
      have hfx : f x ≠ f a := by
        intro heq
        apply hnd2.1
        rw [heq]
        exact List.mem_map_of_mem f hmem2
      rw [List.map_cons, List.erase_cons_tail (by simpa using hfx),
        List.erase_cons_tail (by simpa using hx), List.map_cons,
        map_erase_of_nodup f l a hnd2.2 hmem2]

/-! ## What the registry operations do -/

theorem save_registry (s : App) (u : Bool) :
    (save s u).bricks = s.bricks ∧ (save s u).collisionBoxes = s.collisionBoxes ∧
    (save s u).history = s.history ∧ (save s u).nextRef = s.nextRef ∧
    (save s u).currentSpec = s.currentSpec := by
  cases u <;> simp [save]

theorem addBrick_user (s : App) (newId : ℚ) :
    ∃ s1, addBrick s none newId = some s1 ∧
      s1.bricks = s.bricks ++
        [newMesh s s.currentSpec s.currentColor s.ghostPosition s.rotation newId] ∧
      s1.collisionBoxes = s.collisionBoxes ++
        [addBrickBox (s.nextRef + 1) s.currentSpec s.rotation s.ghostPosition] ∧
      s1.history = s.history ++
        [{ action := "add", id := some newId,
           data := { specId := s.currentSpec.id, color := s.currentColor,
                     pos := s.ghostPosition, rot := s.rotation } }] ∧
      s1.nextRef = s.nextRef + 2 ∧ s1.currentSpec = s.currentSpec := by
  refine ⟨_, rfl, ?_⟩
  simp [save, newMesh]

theorem addBrick_data (s : App) (dt : BrickData) (newId : ℚ) (spec : Spec)
    (hspec : specs dt.specId = some spec) :
    ∃ s1, addBrick s (some dt) newId = some s1 ∧
      s1.bricks = s.bricks ++ [newMesh s spec dt.color dt.pos dt.rot newId] ∧
      s1.collisionBoxes = s.collisionBoxes ++ [addBrickBox (s.nextRef + 1) spec dt.rot dt.pos] ∧
      s1.history = s.history ∧
      s1.nextRef = s.nextRef + 2 ∧ s1.currentSpec = s.currentSpec := by
  refine ⟨_, by simp [addBrick, hspec]; rfl, ?_⟩
  simp [newMesh]

theorem addBrick_data_none (s : App) (dt : BrickData) (newId : ℚ)
    (hspec : specs dt.specId = none) : addBrick s (some dt) newId = none := by
  simp [addBrick, hspec]

theorem removeBrick_absent (s : App) (mesh : Mesh) (u : Bool) (h : mesh ∉ s.bricks) :
    removeBrick s mesh u = s := by
  simp [removeBrick, (jsIndexOf_eq_neg_one_iff s.bricks mesh).mpr h]

theorem removeBrick_present (s : App) (mesh : Mesh) (u : Bool) (h : mesh ∈ s.bricks) :
    (removeBrick s mesh u).bricks = s.bricks.erase mesh ∧
    (removeBrick s mesh u).collisionBoxes =
      jsSplice1 s.collisionBoxes (jsIndexOf s.collisionBoxes mesh.userData.box) ∧
    (removeBrick s mesh u).history =
      (if u then s.history
       else s.history ++ [{ action := "remove", id := none, data := mesh.brickData }]) ∧
    (removeBrick s mesh u).nextRef = s.nextRef ∧
    (removeBrick s mesh u).currentSpec = s.currentSpec := by
  have hidx : ¬ jsIndexOf s.bricks mesh = -1 := by
    rw [jsIndexOf_eq_neg_one_iff]; exact fun hn => hn h
  cases u <;> simp [removeBrick, hidx, save, jsSplice1_self_of_mem s.bricks mesh h]

/-! ## The invariant holds in every reachable state -/

theorem specs_of_mem_catalog (spec : Spec) (h : spec ∈ CATALOG) :
    specs spec.id = some spec := by
  simp only [CATALOG, List.mem_cons, List.mem_singleton, List.not_mem_nil, or_false] at h
  rcases h with h | h | h | h | h | h | h | h | h | h | h | h | h | h | h | h | h <;>
    (subst h; simp [specs, CATALOG])

theorem specs_some (id : String) (spec : Spec) (h : specs id = some spec) :
    spec ∈ CATALOG ∧ spec.id = id := by
  unfold specs at h
  refine ⟨List.mem_of_find?_eq_some h, ?_⟩
  have := List.find?_some h
  simpa using this

theorem Inv.of_registry_eq {s s1 : App} (h : Inv s)
    (hb : s1.bricks = s.bricks) (hc : s1.collisionBoxes = s.collisionBoxes)
    (hn : s1.nextRef = s.nextRef) (hs : s1.currentSpec = s.currentSpec) : Inv s1 where
  lockstep := by rw [hb, hc]; exact h.lockstep
  nodup := by rw [hb]; exact h.nodup
  fresh := by rw [hb, hn]; exact h.fresh
  derived := by rw [hb]; exact h.derived
  current := by rw [hs]; exact h.current

theorem Inv.save {s : App} (h : Inv s) (u : Bool) : Inv (save s u) :=
  h.of_registry_eq (save_registry s u).1 (save_registry s u).2.1 (save_registry s u).2.2.2.1
    (save_registry s u).2.2.2.2

theorem Inv.append {s s1 : App} (h : Inv s) (spec : Spec) (hspec : spec ∈ CATALOG)
    (color : Nat) (pos : Vec3) (rot : Nat) (newId : ℚ)
    (hb : s1.bricks = s.bricks ++ [newMesh s spec color pos rot newId])
    (hc : s1.collisionBoxes = s.collisionBoxes ++ [addBrickBox (s.nextRef + 1) spec rot pos])
    (hn : s1.nextRef = s.nextRef + 2) (hs : s1.currentSpec = s.currentSpec) : Inv s1 where
  lockstep := by
    rw [hb, hc, h.lockstep]
    simp [Mesh.box, newMesh]
  nodup := by
    rw [hb, List.map_append]
    refine List.Nodup.append h.nodup (by simp) ?_
    intro b hb1 hb2
    simp only [List.map_cons, List.map_nil, List.mem_singleton] at hb2
    obtain ⟨m, hm, rfl⟩ := List.mem_map.mp hb1
    have hlt := h.fresh m hm
    have href : m.userData.box.ref = s.nextRef + 1 := by
      have := congrArg Box3.ref hb2
      simpa [Mesh.box, newMesh, addBrickBox] using this
    omega
  fresh := by
    intro m hm
    rw [hb] at hm
    rw [hn]
    rcases List.mem_append.mp hm with hm | hm
    · have := h.fresh m hm; omega
    · simp only [List.mem_singleton] at hm
      subst hm
      simp [newMesh, addBrickBox]
  derived := by
    intro m hm
    rw [hb] at hm
    rcases List.mem_append.mp hm with hm | hm
    · exact h.derived m hm
    · simp only [List.mem_singleton] at hm
      subst hm
      exact ⟨spec, hspec, specs_of_mem_catalog spec hspec, by simp [newMesh, addBrickBox]⟩
  current := by rw [hs]; exact h.current

theorem Inv.addBrick {s s1 : App} (h : Inv s) (data : Option BrickData) (newId : ℚ)
    (hadd : addBrick s data newId = some s1) : Inv s1 := by
  cases data with
  | none =>
    obtain ⟨s2, h2, hb, hc, _, hn, hs⟩ := addBrick_user s newId
    rw [h2] at hadd
    cases hadd
    exact h.append s.currentSpec h.current _ _ _ newId hb hc hn hs
  | some dt =>
    cases hsp : specs dt.specId with
    | none =>
      rw [addBrick_data_none s dt newId hsp] at hadd
      cases hadd
    | some spec =>
      obtain ⟨s2, h2, hb, hc, _, hn, hs⟩ := addBrick_data s dt newId spec hsp
      rw [h2] at hadd
      cases hadd
      exact h.append spec (specs_some _ _ hsp).1 _ _ _ newId hb hc hn hs

theorem Inv.box_mem {s : App} (h : Inv s) (mesh : Mesh) (hm : mesh ∈ s.bricks) :
    mesh.userData.box ∈ s.collisionBoxes := by
  rw [h.lockstep]
  exact List.mem_map_of_mem Mesh.box hm

theorem removeBrick_collisionBoxes {s : App} (h : Inv s) (mesh : Mesh) (u : Bool)
    (hm : mesh ∈ s.bricks) :
    (removeBrick s mesh u).collisionBoxes = (s.bricks.erase mesh).map Mesh.box := by
  rw [(removeBrick_present s mesh u hm).2.1,
    jsSplice1_self_of_mem _ _ (h.box_mem mesh hm), h.lockstep]
  exact map_erase_of_nodup Mesh.box s.bricks mesh h.nodup hm

theorem Inv.removeBrick {s : App} (h : Inv s) (mesh : Mesh) (u : Bool) :
    Inv (removeBrick s mesh u) := by
  by_cases hm : mesh ∈ s.bricks
  · obtain ⟨hb, _, _, hn, hs⟩ := removeBrick_present s mesh u hm
    refine ⟨?_, ?_, ?_, ?_, ?_⟩
    · rw [removeBrick_collisionBoxes h mesh u hm, hb]
    · rw [hb]
      exact (h.nodup.sublist ((List.erase_sublist mesh s.bricks).map Mesh.box))
    · intro m hmem
      rw [hb] at hmem
      rw [hn]
      exact h.fresh m (List.mem_of_mem_erase hmem)
    · intro m hmem
      rw [hb] at hmem
      exact h.derived m (List.mem_of_mem_erase hmem)
    · rw [hs]; exact h.current
  · rw [removeBrick_absent s mesh u hm]; exact h

theorem Inv.initial : Inv App.initial where
  lockstep := rfl
  nodup := List.nodup_nil
  fresh := fun m hm => by simp [App.initial] at hm
  derived := fun m hm => by simp [App.initial] at hm
  current := by simp [App.initial, CATALOG]

theorem Inv.clearScene {s : App} (h : Inv s) : Inv (clearScene s) where
  lockstep := rfl
  nodup := List.nodup_nil
  fresh := fun m hm => by simp [Lego.clearScene] at hm
  derived := fun m hm => by simp [Lego.clearScene] at hm
  current := h.current

theorem Inv.undo {s s1 : App} (h : Inv s) (newId : ℚ)
    (hs : (undo s newId).state? = some s1) : Inv s1 := by
  unfold Lego.undo at hs
  cases hlast : s.history.getLast? with
  | none =>
    rw [hlast] at hs
    simp only [Completion.state?, Option.some.injEq] at hs
    rw [← hs]
    exact h
  | some lastAction =>
    rw [hlast] at hs
    have h1 : Inv { s with history := s.history.dropLast } :=
      h.of_registry_eq rfl rfl rfl rfl
    simp only at hs
    by_cases hadd : lastAction.action = "add"
    · simp only [hadd, if_true, Completion.state?, Option.some.injEq] at hs
      rw [← hs]
      apply Inv.save
      split
      · exact h1.removeBrick _ true
      · exact h1
    · by_cases hrem : lastAction.action = "remove"
      · rw [if_neg hadd, if_pos hrem] at hs
        cases hres : Lego.addBrick { s with history := s.history.dropLast }
            (some lastAction.data) newId with
        | none =>
          by_cases hk : lastAction.data.specId ∈ inheritedKeys
          · simp [hres, hk, Completion.state?] at hs
          · simp only [hres, hk, if_false, Completion.state?, Option.some.injEq] at hs
            rw [← hs]
            exact h1
        | some s2 =>
          have h2 : Inv s2 := h1.addBrick _ newId hres
          simp only [hres, Completion.state?, Option.some.injEq] at hs
          rw [← hs]
          apply Inv.save
          split
          · split_ifs
            · exact h2.of_registry_eq rfl rfl rfl rfl
            · exact h2
          · exact h2
      · rw [if_neg hadd, if_neg hrem] at hs
        simp only [Completion.state?, Option.some.injEq] at hs
        rw [← hs]
        exact h1.save true

theorem Reachable.inv {s : App} (h : Reachable s) : Inv s := by
  induction h with
  | initial => exact Inv.initial
  | pending s spec color rotation ghost _ hspec ih =>
    exact ⟨ih.lockstep, ih.nodup, ih.fresh, ih.derived, hspec⟩
  | addBrick s s1 data newId _ hadd ih => exact ih.addBrick data newId hadd
  | removeBrick s mesh isUndo _ ih => exact ih.removeBrick mesh isUndo
  | clearScene s _ ih => exact ih.clearScene
  | undo s s1 newId _ hs ih => exact ih.undo newId hs
  | historyLoaded s hist _ ih => exact ih.of_registry_eq rfl rfl rfl rfl

theorem oneBrickScene_reachable : Reachable oneBrickScene :=
  Reachable.addBrick App.initial oneBrickScene none 1 Reachable.initial rfl

/-- C8: in every reachable state the part list and the box list have the same
length, the box at every index is the occupied volume of the part at that
index, and no box object occurs twice. -/
theorem registry_lockstep (s : App) (h : Reachable s) :
    s.bricks.length = s.collisionBoxes.length ∧
    (∀ i : Nat, s.collisionBoxes[i]? = (s.bricks[i]?).map (fun m => m.userData.box)) ∧
    s.collisionBoxes.Nodup := by
  have hinv := h.inv
  refine ⟨?_, ?_, ?_⟩
  · rw [hinv.lockstep, List.length_map]
  · intro i
    rw [hinv.lockstep, List.getElem?_map]
    rfl
  · rw [hinv.lockstep]
    exact hinv.nodup

theorem registry_lockstep_witness :
    oneBrickScene.bricks.length = oneBrickScene.collisionBoxes.length ∧
    (∀ i : Nat, oneBrickScene.collisionBoxes[i]? =
        (oneBrickScene.bricks[i]?).map (fun m => m.userData.box)) ∧
    oneBrickScene.collisionBoxes.Nodup :=
  registry_lockstep oneBrickScene oneBrickScene_reachable

/-! ## Undo -/

theorem undo_of_add (s : App) (newId : ℚ) (e : HistoryEntry) (mesh : Mesh)
    (hlast : s.history.getLast? = some e) (hact : e.action = "add")
    (hfind : s.bricks.find? (fun b => decide (some b.userData.id = e.id)) = some mesh) :
    undo s newId =
      Completion.returned
        (save (removeBrick { s with history := s.history.dropLast } mesh true) true) := by
  unfold undo
  rw [hlast]
  simp only [hact, if_true]
  rw [hfind]

theorem undo_of_remove (s s2 : App) (newId : ℚ) (e : HistoryEntry)
    (hlast : s.history.getLast? = some e) (hact : e.action = "remove")
    (hadd : addBrick { s with history := s.history.dropLast } (some e.data) newId = some s2) :
    ∃ s3, undo s newId = Completion.returned s3 ∧
      s3.bricks = s2.bricks ∧ s3.collisionBoxes = s2.collisionBoxes := by
  unfold undo
  rw [hlast]
  have hne : ¬ e.action = "add" := by rw [hact]; decide
  simp only [hne, hact, if_true, if_false]
  rw [hadd]
  refine ⟨_, rfl, ?_⟩
  rw [(save_registry _ true).1, (save_registry _ true).2.1]
  split
  · split_ifs <;> exact ⟨rfl, rfl⟩
  · exact ⟨rfl, rfl⟩

theorem find_appended (l : List Mesh) (m : Mesh) (p : Mesh → Bool)
    (hl : ∀ x ∈ l, p x = false) (hm : p m = true) : (l ++ [m]).find? p = some m := by
  induction l with
  | nil => simp [hm]
  | cons x l ih =>
    have hx : p x = false := hl x (List.mem_cons_self x l)
    rw [List.cons_append, List.find?_cons, hx]
    exact ih (fun y hy => hl y (List.mem_cons_of_mem x hy))

/-- C9: from a reachable state, at any ghost pose, a user `addBrick` with an
instance id that no present part carries, followed by `undo`, gives back the
same parts (hence the same spec, color, position and rotation tuples), the
same occupied volumes, and a history of the same length. -/
theorem add_then_undo_restores (s : App) (ghost : Vec3) (rotation : Nat) (newId undoId : ℚ)
    (hs : Reachable s) (hid : ∀ m ∈ s.bricks, m.userData.id ≠ newId) :
    ∃ s1 s2,
      addBrick { s with ghostPosition := ghost, rotation := rotation } none newId = some s1 ∧
      undo s1 undoId = Completion.returned s2 ∧
      s2.bricks = s.bricks ∧
      s2.bricks.map Mesh.brickData = s.bricks.map Mesh.brickData ∧
      s2.collisionBoxes = s.collisionBoxes ∧
      s2.history = s.history ∧
      s2.history.length = s.history.length := by
  have hinv0 : Inv { s with ghostPosition := ghost, rotation := rotation } :=
    hs.inv.of_registry_eq rfl rfl rfl rfl
  obtain ⟨s1, h1, hb, hc, hh, hn, hcs⟩ :=
    addBrick_user { s with ghostPosition := ghost, rotation := rotation } newId
  simp only at hb hc hh hn hcs
  have hinv1 : Inv s1 := hinv0.addBrick none newId h1
  have hinv1b : Inv { s1 with history := s1.history.dropLast } :=
    hinv1.of_registry_eq rfl rfl rfl rfl
  set nm := newMesh { s with ghostPosition := ghost, rotation := rotation } s.currentSpec
    s.currentColor ghost rotation newId with hnm
  have hnotin : nm ∉ s.bricks := by
    intro hmem
    exact hid nm hmem (by simp [hnm, newMesh])
  have hlast : s1.history.getLast? = some
      { action := "add", id := some newId,
        data := { specId := s.currentSpec.id, color := s.currentColor,
                  pos := ghost, rot := rotation } } := by
    rw [hh]; simp
  have hfind : s1.bricks.find? (fun b => decide (some b.userData.id = some newId)) = some nm := by
    rw [hb]
    apply find_appended
    · intro x hx
      have := hid x hx
      simpa using this
    · simp [hnm, newMesh]
  have hmem : nm ∈ s1.bricks := by rw [hb]; simp
  have hundo := undo_of_add s1 undoId _ nm hlast rfl hfind
  have hrm := removeBrick_present { s1 with history := s1.history.dropLast } nm true hmem
  have hrmc := removeBrick_collisionBoxes hinv1b nm true hmem
  simp only at hrm hrmc
  have herase : s1.bricks.erase nm = s.bricks := by
    rw [hb, List.erase_append_right _ hnotin]
    simp
  refine ⟨s1, _, h1, hundo, ?_, ?_, ?_, ?_, ?_⟩
  · rw [(save_registry _ true).1, hrm.1, herase]
  · rw [(save_registry _ true).1, hrm.1, herase]
  · rw [(save_registry _ true).2.1, hrmc, herase, hs.inv.lockstep]
  · rw [(save_registry _ true).2.2.1, hrm.2.2.1, hh]
    simp
  · rw [(save_registry _ true).2.2.1, hrm.2.2.1, hh]
    simp

theorem add_then_undo_restores_witness :
    ∃ s1 s2,
      addBrick { oneBrickScene with ghostPosition := ⟨40, 0, 0⟩, rotation := 0 } none 2 = some s1 ∧
      undo s1 3 = Completion.returned s2 ∧
      s2.bricks = oneBrickScene.bricks ∧
      s2.bricks.map Mesh.brickData = oneBrickScene.bricks.map Mesh.brickData ∧
      s2.collisionBoxes = oneBrickScene.collisionBoxes ∧
      s2.history = oneBrickScene.history ∧
      s2.history.length = oneBrickScene.history.length :=
  add_then_undo_restores oneBrickScene ⟨40, 0, 0⟩ 0 2 3 oneBrickScene_reachable (by
    intro m hm
    simp [oneBrickScene, addBrick, App.initial, save] at hm
    subst hm
    norm_num)

theorem perm_readd (l : List Mesh) (p q : Mesh) (hp : p ∈ l)
    (hq : q.brickData = p.brickData) :
    ((l.erase p ++ [q]).map Mesh.brickData).Perm (l.map Mesh.brickData) := by
  rw [List.map_append, List.map_cons, List.map_nil, hq]
  refine (List.perm_append_comm).trans ?_
  rw [List.singleton_append, ← List.map_cons]
  exact (List.perm_cons_erase hp).symm.map _

/-- C10: from a reachable state, a user `removeBrick` of a present part `p`
followed by `undo` returns; the registry then holds the other parts and their
boxes unchanged and in order, followed by one re-added part with the tuple of
`p` and an occupied volume with the bounds of the original one, so the tuples
of the registry are those of the start, up to order. -/
theorem remove_then_undo_restores (s : App) (p : Mesh) (undoId : ℚ)
    (hs : Reachable s) (hp : p ∈ s.bricks) :
    ∃ s2 q,
      undo (removeBrick s p false) undoId = Completion.returned s2 ∧
      s2.bricks = s.bricks.erase p ++ [q] ∧
      s2.collisionBoxes = s.collisionBoxes.erase p.userData.box ++ [q.userData.box] ∧
      q.brickData = p.brickData ∧
      q.userData.box.min = p.userData.box.min ∧
      q.userData.box.max = p.userData.box.max ∧
      (s2.bricks.map Mesh.brickData).Perm (s.bricks.map Mesh.brickData) := by
  have hinv := hs.inv
  obtain ⟨hb, hc, hh, hn, hcs⟩ := removeBrick_present s p false hp
  have hc2 := removeBrick_collisionBoxes hinv p false hp
  obtain ⟨spec, _, hspec, hbox⟩ := hinv.derived p hp
  have hlast : (removeBrick s p false).history.getLast? =
      some { action := "remove", id := none, data := p.brickData } := by
    rw [hh]; simp
  have hspec2 : specs (p.brickData).specId = some spec := hspec
  obtain ⟨s2, hadd, hb2, hc2b, _, _, _⟩ :=
    addBrick_data { removeBrick s p false with
      history := (removeBrick s p false).history.dropLast } p.brickData undoId spec hspec2
  simp only at hb2 hc2b
  obtain ⟨s3, hundo, hb3, hc3⟩ :=
    undo_of_remove (removeBrick s p false) s2 undoId _ hlast rfl hadd
  have hid : spec.id = p.userData.specId := (specs_some _ _ hspec).2
  refine ⟨s3, _, hundo, by rw [hb3, hb2, hb], ?_, ?_, ?_, ?_, ?_⟩
  · rw [hc3, hc2b, hc2, hinv.lockstep,
      ← map_erase_of_nodup Mesh.box s.bricks p hinv.nodup hp]
    rfl
  · simp [newMesh, Mesh.brickData, hid]
  · rw [hbox]; simp [newMesh, Mesh.brickData, addBrickBox]
  · rw [hbox]; simp [newMesh, Mesh.brickData, addBrickBox]
  · rw [hb3, hb2, hb]
    exact perm_readd s.bricks p _ hp (by simp [newMesh, Mesh.brickData, hid])

theorem oneBrickScene_bricks :
    oneBrickScene.bricks =
      [⟨0, ⟨0, 0, 0⟩, ⟨1, "b2x4", 0xcc0000, 0, ⟨1, ⟨-20, 0, -40⟩, ⟨20, 24, 40⟩⟩⟩⟩] := by
  simp [oneBrickScene, addBrick, App.initial, save, addBrickBox, addBrickDims, UNIT]
  norm_num

theorem remove_then_undo_restores_witness :
    ∃ s2 q,
      undo (removeBrick oneBrickScene originBrick false) 2 = Completion.returned s2 ∧
      s2.bricks = oneBrickScene.bricks.erase originBrick ++ [q] ∧
      s2.collisionBoxes =
        oneBrickScene.collisionBoxes.erase originBrick.userData.box ++ [q.userData.box] ∧
      q.brickData = originBrick.brickData ∧
      q.userData.box.min = originBrick.userData.box.min ∧
      q.userData.box.max = originBrick.userData.box.max ∧
      (s2.bricks.map Mesh.brickData).Perm (oneBrickScene.bricks.map Mesh.brickData) :=
  remove_then_undo_restores oneBrickScene originBrick 2 oneBrickScene_reachable
    (by rw [oneBrickScene_bricks]; simp [originBrick])

/-! ## Hits on the underside of a part -/

theorem snap_near (v : ℚ) (dim : Nat) : v - 10 ≤ snap v dim ∧ snap v dim ≤ v + 10 := by
  unfold snap mathRound
  split_ifs with h
  · have h1 := Int.floor_le (v / UNIT + 1 / 2)
    have h2 := Int.lt_floor_add_one (v / UNIT + 1 / 2)
    simp only [UNIT] at *
    constructor <;> linarith
  · have h1 := Int.floor_le (v / UNIT)
    have h2 := Int.lt_floor_add_one (v / UNIT)
    simp only [UNIT] at *
    constructor <;> linarith

theorem catalog_bounds (spec : Spec) (h : spec ∈ CATALOG) :
    1 ≤ spec.w ∧ 1 ≤ spec.d ∧ 4 ≤ spec.h := by
  simp only [CATALOG, List.mem_cons, List.mem_singleton, List.not_mem_nil, or_false] at h
  rcases h with h | h | h | h | h | h | h | h | h | h | h | h | h | h | h | h | h <;>
    (subst h; norm_num)

theorem checkCollisionDims_ge (spec : Spec) (rotation : Nat) (h : spec ∈ CATALOG) :
    20 ≤ (checkCollisionDims spec rotation).1 ∧ 20 ≤ (checkCollisionDims spec rotation).2 := by
  obtain ⟨hw, hd, _⟩ := catalog_bounds spec h
  have hw2 : (1 : ℚ) ≤ spec.w := by exact_mod_cast hw
  have hd2 : (1 : ℚ) ≤ spec.d := by exact_mod_cast hd
  unfold checkCollisionDims
  simp only [UNIT]
  split_ifs <;> constructor <;> linarith

theorem floatingScene_reachable : Reachable floatingScene :=
  Reachable.removeBrick _ originBrick false
    (Reachable.addBrick { oneBrickScene with ghostPosition := ⟨0, 24, 0⟩ } _ none 2
      (Reachable.pending oneBrickScene oneBrickScene.currentSpec oneBrickScene.currentColor
        oneBrickScene.rotation ⟨0, 24, 0⟩ oneBrickScene_reachable oneBrickScene_reachable.inv.current)
      rfl)

theorem floatingScene_registry :
    floatingScene.bricks = [floatingBrick] ∧
    floatingScene.collisionBoxes = [floatingBrick.userData.box] ∧
    floatingScene.currentSpec = ⟨"b2x4", "brick", 2, 4, 24, none⟩ ∧
    floatingScene.rotation = 0 := by
  have hmid : ((addBrick { oneBrickScene with ghostPosition := ⟨0, 24, 0⟩ } none 2).getD
      oneBrickScene).bricks = [originBrick, floatingBrick] := by
    simp [addBrick, save, oneBrickScene_bricks, originBrick, floatingBrick, addBrickBox,
      addBrickDims, oneBrickScene_pending, UNIT]
    simp [oneBrickScene, addBrick, App.initial, save]
    norm_num
  have hinv : Inv ((addBrick { oneBrickScene with ghostPosition := ⟨0, 24, 0⟩ } none 2).getD
      oneBrickScene) :=
    (Reachable.addBrick { oneBrickScene with ghostPosition := ⟨0, 24, 0⟩ } _ none 2
      (Reachable.pending oneBrickScene oneBrickScene.currentSpec oneBrickScene.currentColor
        oneBrickScene.rotation ⟨0, 24, 0⟩ oneBrickScene_reachable
        oneBrickScene_reachable.inv.current) rfl).inv
  have hmem : originBrick ∈ ((addBrick { oneBrickScene with ghostPosition := ⟨0, 24, 0⟩ } none
      2).getD oneBrickScene).bricks := by rw [hmid]; simp
  have hrm := removeBrick_present _ originBrick false hmem
  have hrc := removeBrick_collisionBoxes hinv originBrick false hmem
  have herase : [originBrick, floatingBrick].erase originBrick = [floatingBrick] := by
    simp
  unfold floatingScene
  refine ⟨?_, ?_, ?_, ?_⟩
  · rw [hrm.1, hmid, herase]
  · rw [hrc, hmid, herase]; rfl
  · rw [hrm.2.2.2.2]
    simp [addBrick, save, oneBrickScene_pending]
  · simp [removeBrick, addBrick, save, oneBrickScene_pending]
    split_ifs <;> simp [oneBrickScene_pending]

/-- C7 as stated fails: in `floatingScene` the only part floats above empty
space, the hit is in the middle of its underside with the normal pointing
straight down, and the candidate that `calcSnap` returns, `(0, 24, 0)`, is
reported invalid by `checkCollision`. -/
theorem underside_candidate_rejected :
    floatingScene.bricks = [floatingBrick] ∧
    floatingScene.collisionBoxes = [floatingBrick.userData.box] ∧
    undersideHit.object = HitObject.brick floatingBrick ∧
    undersideHit.face = some ⟨some ⟨0, -1, 0⟩⟩ ∧
    undersideHit.point.y = floatingBrick.userData.box.min.y ∧
    calcSnap floatingScene undersideHit = ⟨0, 24, 0⟩ ∧
    checkCollision floatingScene (calcSnap floatingScene undersideHit) = false := by
  obtain ⟨hb, hc, hspec, hrot⟩ := floatingScene_registry
  have hsnap : calcSnap floatingScene undersideHit = ⟨0, 24, 0⟩ := by
    simp [calcSnap, undersideHit, hspec, hrot, calcSnapDims, snap, mathRound, floatingBrick,
      UNIT]
    norm_num
  refine ⟨hb, hc, rfl, rfl, rfl, hsnap, ?_⟩
  rw [hsnap, checkCollision_eq_false_iff]
  refine ⟨floatingBrick.userData.box, by rw [hc]; simp, ?_⟩
  rw [intersectsBox_eq_true_iff]
  simp [checkCollisionBox, checkCollisionDims, hspec, hrot, floatingBrick, UNIT]
  norm_num

/-- C7, amended: in a reachable state, for a hit on the underside of a placed
part `p` (normal pointing straight down, hit point at least 0.5 inside the
footprint of `p` on both horizontal axes), `calcSnap` returns a candidate that
rests at the bottom elevation of `p` itself, not below it; the candidate
overlaps `p`, and `checkCollision` reports it invalid. -/
theorem underside_hit_yields_invalid_candidate (s : App) (p : Mesh) (hit : Hit) (f : Face)
    (n : Vec3) (hs : Reachable s) (hp : p ∈ s.bricks)
    (hobj : hit.object = HitObject.brick p)
    (hf : hit.face = some f) (hn : f.normal = some n)
    (hnx : n.x = 0) (hny : n.y < 0) (hnz : n.z = 0)
    (hx : p.userData.box.min.x + 1 / 2 ≤ hit.point.x ∧
          hit.point.x ≤ p.userData.box.max.x - 1 / 2)
    (hz : p.userData.box.min.z + 1 / 2 ≤ hit.point.z ∧
          hit.point.z ≤ p.userData.box.max.z - 1 / 2) :
    (calcSnap s hit).y = p.userData.box.min.y ∧
    checkCollision s (calcSnap s hit) = false := by
  have hinv := hs.inv
  have hy : (calcSnap s hit).y = p.userData.box.min.y := by
    rw [calcSnap_y s hit f n hf hn, hobj]
    have hnot : ¬ (n.y > 1 / 2) := by linarith
    exact if_neg hnot
  refine ⟨hy, ?_⟩
  rw [checkCollision_eq_false_iff]
  refine ⟨p.userData.box, hinv.box_mem p hp, ?_⟩
  rw [intersectsBox_eq_true_iff]
  obtain ⟨spec, hspec, _, hbox⟩ := hinv.derived p hp
  obtain ⟨_, _, hh⟩ := catalog_bounds spec hspec
  obtain ⟨_, _, hch⟩ := catalog_bounds s.currentSpec hinv.current
  obtain ⟨hw, hd⟩ := checkCollisionDims_ge s.currentSpec s.rotation hinv.current
  have hpy : p.userData.box.max.y = p.userData.box.min.y + spec.h := by
    rw [hbox]; simp [addBrickBox]
  have hsx := snap_near (hit.point.x + n.x * (1 / 10)) (calcSnapDims s.currentSpec s.rotation).1
  have hsz := snap_near (hit.point.z + n.z * (1 / 10)) (calcSnapDims s.currentSpec s.rotation).2
  rw [← calcSnap_x s hit f n hf hn, hnx] at hsx
  rw [← calcSnap_z s hit f n hf hn, hnz] at hsz
  simp only [checkCollisionBox, hy]
  refine ⟨⟨?_, ?_⟩, ⟨?_, ?_⟩, ⟨?_, ?_⟩⟩ <;> linarith [hx.1, hx.2, hz.1, hz.2, hsx.1, hsx.2, hsz.1, hsz.2]

theorem underside_hit_yields_invalid_candidate_witness :
    (calcSnap floatingScene undersideHit).y = floatingBrick.userData.box.min.y ∧
    checkCollision floatingScene (calcSnap floatingScene undersideHit) = false :=
  underside_hit_yields_invalid_candidate floatingScene floatingBrick undersideHit
    ⟨some ⟨0, -1, 0⟩⟩ ⟨0, -1, 0⟩ floatingScene_reachable
    (by rw [floatingScene_registry.1]; simp)
    rfl rfl rfl rfl (by norm_num) rfl
    (by simp [floatingBrick, undersideHit]; norm_num)
    (by simp [floatingBrick, undersideHit]; norm_num)

/-! ## History length after undoing a removal -/

theorem undo_of_remove_history (s s2 : App) (newId : ℚ) (e : HistoryEntry)
    (hlast : s.history.getLast? = some e) (hact : e.action = "remove")
    (hadd : addBrick { s with history := s.history.dropLast } (some e.data) newId = some s2) :
    ∃ s3, undo s newId = Completion.returned s3 ∧
      s3.history =
        (match s2.history.getLast? with
         | some e2 => if e2.action = "add" then s2.history.dropLast else s2.history
         | none => s2.history) := by
  unfold undo
  rw [hlast]
  have hne : ¬ e.action = "add" := by rw [hact]; decide
  simp only [hne, hact, if_true, if_false]
  rw [hadd]
  refine ⟨_, rfl, ?_⟩
  rw [(save_registry _ true).2.2.1]
  split
  · split_ifs <;> rfl
  · rfl

/-- What remove-then-undo does to the history of a reachable state: the
history comes back without its last entry when that entry is an `add`, and
unchanged otherwise. -/
theorem remove_then_undo_history (s : App) (p : Mesh) (undoId : ℚ)
    (hs : Reachable s) (hp : p ∈ s.bricks) :
    ∃ s2, undo (removeBrick s p false) undoId = Completion.returned s2 ∧
      s2.history =
        (match s.history.getLast? with
         | some e => if e.action = "add" then s.history.dropLast else s.history
         | none => s.history) := by
  have hinv := hs.inv
  obtain ⟨hb, hc, hh, hn, hcs⟩ := removeBrick_present s p false hp
  obtain ⟨spec, _, hspec, hbox⟩ := hinv.derived p hp
  have hlast : (removeBrick s p false).history.getLast? =
      some { action := "remove", id := none, data := p.brickData } := by
    rw [hh]; simp
  have hspec2 : specs (p.brickData).specId = some spec := hspec
  obtain ⟨s2, hadd, _, _, hh2, _, _⟩ :=
    addBrick_data { removeBrick s p false with
      history := (removeBrick s p false).history.dropLast } p.brickData undoId spec hspec2
  simp only at hh2
  obtain ⟨s3, hundo, hh3⟩ :=
    undo_of_remove_history (removeBrick s p false) s2 undoId _ hlast rfl hadd
  refine ⟨s3, hundo, ?_⟩
  have hdrop : (removeBrick s p false).history.dropLast = s.history := by
    rw [hh]; simp
  rw [hh3, hh2, hdrop]

theorem oneBrickScene_history :
    oneBrickScene.history =
      [{ action := "add", id := some 1,
         data := { specId := "b2x4", color := 0xcc0000, pos := ⟨0, 0, 0⟩, rot := 0 } }] := by
  simp [oneBrickScene, addBrick, App.initial, save]

theorem originBrick_mem : originBrick ∈ oneBrickScene.bricks := by
  rw [oneBrickScene_bricks]; simp [originBrick]

/-- C11 fails on the code: in `oneBrickScene` the history holds the one `add`
entry of the brick; after the user removes that brick and undoes the removal,
`undo` has returned and the history is empty, its length 0 instead of 1. -/
theorem remove_then_undo_shortens_history :
    originBrick ∈ oneBrickScene.bricks ∧
    oneBrickScene.history.length = 1 ∧
    ∃ s2, undo (removeBrick oneBrickScene originBrick false) 2 = Completion.returned s2 ∧
      s2.history = [] ∧ s2.history.length = 0 := by
  refine ⟨originBrick_mem, by rw [oneBrickScene_history]; rfl, ?_⟩
  obtain ⟨s2, hundo, hh⟩ :=
    remove_then_undo_history oneBrickScene originBrick 2 oneBrickScene_reachable originBrick_mem
  refine ⟨s2, hundo, ?_⟩
  rw [oneBrickScene_history] at hh
  simp at hh
  simp [hh]

/-! ## What reaches storage -/

theorem addBrick_user_saved (s : App) (newId : ℚ) :
    ∃ s1, addBrick s none newId = some s1 ∧
      s1.lego_bricks = Stored.value (s1.bricks.map Mesh.brickData) ∧
      s1.lego_history = Stored.value s1.history := by
  refine ⟨_, rfl, ?_⟩
  simp [save]

theorem undo_saved (s : App) (newId : ℚ) (s2 : App) (hne : s.history ≠ [])
    (h : undo s newId = Completion.returned s2) :
    s2.lego_bricks = Stored.value (s2.bricks.map Mesh.brickData) := by
  unfold undo at h
  cases hlast : s.history.getLast? with
  | none => simp at hlast; exact absurd hlast hne
  | some lastAction =>
    rw [hlast] at h
    simp only at h
    by_cases hadd : lastAction.action = "add"
    · simp only [hadd, if_true] at h
      cases h; simp [save]
    · by_cases hrem : lastAction.action = "remove"
      · rw [if_neg hadd, if_pos hrem] at h
        cases hres : addBrick { s with history := s.history.dropLast }
            (some lastAction.data) newId with
        | none =>
          rw [hres] at h
          by_cases hk : lastAction.data.specId ∈ inheritedKeys
          · simp [hk] at h
          · simp [hk] at h
        | some s3 => rw [hres] at h; cases h; simp [save]
      · rw [if_neg hadd, if_neg hrem] at h
        cases h; simp [save]

theorem removeBrick_user_saved (s : App) (p : Mesh) (hp : p ∈ s.bricks) :
    (removeBrick s p false).lego_bricks = Stored.value (s.bricks.map Mesh.brickData) := by
  have hidx : ¬ jsIndexOf s.bricks p = -1 := by
    rw [jsIndexOf_eq_neg_one_iff]; exact fun hn => hn hp
  simp [removeBrick, hidx, save]

/-- C13 fails on the code for a user removal: `removeBrick` calls `save`
before it splices the part out, so after the removal of the only brick of
`oneBrickScene` the registry is empty while the stored part list still holds
the record of the removed brick. -/
theorem removal_stores_stale_part_list :
    originBrick ∈ oneBrickScene.bricks ∧
    (removeBrick oneBrickScene originBrick false).bricks = [] ∧
    (removeBrick oneBrickScene originBrick false).lego_bricks =
      Stored.value [{ specId := "b2x4", color := 0xcc0000, pos := ⟨0, 0, 0⟩, rot := 0 }] ∧
    (removeBrick oneBrickScene originBrick false).lego_bricks ≠
      Stored.value ((removeBrick oneBrickScene originBrick false).bricks.map Mesh.brickData) := by
  have hb : (removeBrick oneBrickScene originBrick false).bricks = [] := by
    rw [(removeBrick_present oneBrickScene originBrick false originBrick_mem).1,
      oneBrickScene_bricks]
    simp [originBrick]
  have hst : (removeBrick oneBrickScene originBrick false).lego_bricks =
      Stored.value [{ specId := "b2x4", color := 0xcc0000, pos := ⟨0, 0, 0⟩, rot := 0 }] := by
    rw [removeBrick_user_saved oneBrickScene originBrick originBrick_mem, oneBrickScene_bricks]
    simp [Mesh.brickData]
  refine ⟨originBrick_mem, hb, hst, ?_⟩
  rw [hst, hb]
  simp

/-! ## Distance of a snapped coordinate -/

theorem floor_nearest (t : ℚ) (k : ℤ) (hk : k ≠ ⌊t⌋) :
    (k : ℚ) ≤ (⌊t⌋ : ℚ) - 1 ∨ (⌊t⌋ : ℚ) + 1 ≤ (k : ℚ) := by
  rcases lt_or_gt_of_ne hk with h | h
  · left
    have : k ≤ ⌊t⌋ - 1 := by omega
    exact_mod_cast this
  · right
    have : ⌊t⌋ + 1 ≤ k := by omega
    exact_mod_cast this

/-- C20: for every coordinate `v` and footprint dimension, the value of `snap`
differs from `v` by at most `UNIT / 2`, that is 10, and no grid position of
the same parity is closer to `v`. -/
theorem snap_within_half_unit (v : ℚ) (dim : Nat) :
    |snap v dim - v| ≤ UNIT / 2 ∧ |snap v dim - v| ≤ 10 ∧
    (∃ k : ℤ, snap v dim = gridPosition dim k) ∧
    ∀ k : ℤ, |snap v dim - v| ≤ |gridPosition dim k - v| := by
  have hnear := snap_near v dim
  have h10 : |snap v dim - v| ≤ 10 := by
    rw [abs_le]; constructor <;> linarith [hnear.1, hnear.2]
  refine ⟨by simpa [UNIT] using (by norm_num; exact h10 : |snap v dim - v| ≤ 20 / 2), h10, ?_, ?_⟩
  · rcases Nat.mod_two_eq_zero_or_one dim with h | h
    · exact ⟨mathRound (v / UNIT), by rw [snap_even v dim h]; simp [gridPosition, h]⟩
    · exact ⟨⌊v / UNIT⌋, by rw [snap_odd v dim h]; simp [gridPosition, h]⟩
  · intro k
    unfold gridPosition
    split_ifs with h
    · by_cases hk : k = ⌊v / UNIT + 1 / 2⌋
      · rw [hk, snap_even v dim h, mathRound]
      · have h1 := Int.floor_le (v / UNIT + 1 / 2)
        have h2 := Int.lt_floor_add_one (v / UNIT + 1 / 2)
        simp only [UNIT] at h1 h2 hk
        refine le_trans h10 ?_
        rcases floor_nearest (v / 20 + 1 / 2) k hk with hc | hc
        · have : (10 : ℚ) ≤ -((k : ℚ) * 20 - v) := by linarith
          exact le_trans this (neg_le_abs _)
        · have : (10 : ℚ) ≤ (k : ℚ) * 20 - v := by linarith
          exact le_trans this (le_abs_self _)
    · have hodd : dim % 2 = 1 := by omega
      by_cases hk : k = ⌊v / UNIT⌋
      · rw [hk, snap_odd v dim hodd]
      · have h1 := Int.floor_le (v / UNIT)
        have h2 := Int.lt_floor_add_one (v / UNIT)
        simp only [UNIT] at h1 h2 hk
        refine le_trans h10 ?_
        rcases floor_nearest (v / 20) k hk with hc | hc
        · have : (10 : ℚ) ≤ -((k : ℚ) * 20 + 10 - v) := by linarith
          exact le_trans this (neg_le_abs _)
        · have : (10 : ℚ) ≤ (k : ℚ) * 20 + 10 - v := by linarith
          exact le_trans this (le_abs_self _)

/-! ## Save and load -/

theorem catalog_not_inherited (id : String) (spec : Spec) (h : specs id = some spec) :
    id ∉ inheritedKeys := by
  obtain ⟨hcat, hid⟩ := specs_some id spec h
  subst hid
  simp only [CATALOG, List.mem_cons, List.mem_singleton, List.not_mem_nil, or_false] at hcat
  rcases hcat with h | h | h | h | h | h | h | h | h | h | h | h | h | h | h | h | h <;>
    (subst h; decide)

theorem addBricks_known (ids : Nat → ℚ) :
    ∀ (records : List BrickData) (s : App) (k : Nat),
      (∀ r ∈ records, specs r.specId ≠ none) →
      ∃ s1, addBricks ids s k records = some s1 ∧
        s1.bricks.map Mesh.brickData = s.bricks.map Mesh.brickData ++ records ∧
        s1.collisionBoxes.length = s.collisionBoxes.length + records.length ∧
        s1.history = s.history
  | [], s, k, _ => ⟨s, by simp [addBricks]⟩
  | r :: rest, s, k, h => by
    have hr : specs r.specId ≠ none := h r (List.mem_cons_self r rest)
    obtain ⟨spec, hspec⟩ := Option.ne_none_iff_exists'.mp hr
    obtain ⟨s1, hadd, hb, hc, hh, _, _⟩ := addBrick_data s r (ids k) spec hspec
    obtain ⟨s2, hrest, hb2, hc2, hh2⟩ := addBricks_known ids rest s1 (k + 1)
      (fun x hx => h x (List.mem_cons_of_mem r hx))
    have hid : spec.id = r.specId := (specs_some _ _ hspec).2
    refine ⟨s2, by simp only [addBricks, hadd]; exact hrest, ?_, ?_, ?_⟩
    · rw [hb2, hb]
      simp [newMesh, Mesh.brickData, hid]
    · rw [hc2, hc]
      simp
      omega
    · rw [hh2, hh]

theorem addBricks_stops_at_unknown (ids : Nat → ℚ) (bad : BrickData) (post : List BrickData)
    (hbad : specs bad.specId = none) (hplain : bad.specId ∉ inheritedKeys) :
    ∀ (pre : List BrickData) (s : App) (k : Nat),
      (∀ r ∈ pre, specs r.specId ≠ none) →
      addBricks ids s k (pre ++ bad :: post) = addBricks ids s k pre
  | [], s, k, _ => by
    simp [addBricks, addBrick_data_none s bad (ids k) hbad, hplain]
  | r :: rest, s, k, h => by
    have hr : specs r.specId ≠ none := h r (List.mem_cons_self r rest)
    obtain ⟨spec, hspec⟩ := Option.ne_none_iff_exists'.mp hr
    obtain ⟨s1, hadd, _⟩ := addBrick_data s r (ids k) spec hspec
    simp only [List.cons_append, addBricks, hadd]
    exact addBricks_stops_at_unknown ids bad post hbad hplain rest s1 (k + 1)
      (fun x hx => h x (List.mem_cons_of_mem r hx))

/-- A record that names a property inherited from `Object.prototype` takes the
loop out of the states that the embedding represents. -/
theorem addBricks_leaves_at_inherited (ids : Nat → ℚ) (odd : BrickData)
    (post : List BrickData) (hodd : odd.specId ∈ inheritedKeys) :
    ∀ (pre : List BrickData) (s : App) (k : Nat),
      (∀ r ∈ pre, specs r.specId ≠ none) →
      addBricks ids s k (pre ++ odd :: post) = none
  | [], s, k, _ => by
    have hnone : specs odd.specId = none := by
      cases hsp : specs odd.specId with
      | none => rfl
      | some spec => exact absurd hodd (catalog_not_inherited _ spec hsp)
    simp [addBricks, addBrick_data_none s odd (ids k) hnone, hodd]
  | r :: rest, s, k, h => by
    have hr : specs r.specId ≠ none := h r (List.mem_cons_self r rest)
    obtain ⟨spec, hspec⟩ := Option.ne_none_iff_exists'.mp hr
    obtain ⟨s1, hadd, _⟩ := addBrick_data s r (ids k) spec hspec
    simp only [List.cons_append, addBricks, hadd]
    exact addBricks_leaves_at_inherited ids odd post hodd rest s1 (k + 1)
      (fun x hx => h x (List.mem_cons_of_mem r hx))

/-- C12: for every registry whose parts all carry catalog spec ids and every
history, what `save` writes and `load` reads into a new, empty `App` gives the
same sequence of spec, color, position and rotation tuples in the part list
and the same history. -/
theorem save_load_round_trip (s : App) (ids : Nat → ℚ)
    (hcat : ∀ m ∈ s.bricks, specs m.userData.specId ≠ none) :
    ∃ s1, load (freshApp (save s false)) ids = some s1 ∧
      s1.bricks.map Mesh.brickData = s.bricks.map Mesh.brickData ∧
      s1.history = s.history := by
  have hrec : ∀ r ∈ s.bricks.map Mesh.brickData, specs r.specId ≠ none := by
    intro r hr
    obtain ⟨m, hm, rfl⟩ := List.mem_map.mp hr
    exact hcat m hm
  obtain ⟨s1, hload, hb, _, _⟩ := addBricks_known ids (s.bricks.map Mesh.brickData)
    (freshApp (save s false)) 0 hrec
  refine ⟨{ s1 with history := s.history }, ?_, ?_, rfl⟩
  · have hst : (freshApp (save s false)).lego_bricks =
        Stored.value (s.bricks.map Mesh.brickData) := by
      simp [freshApp, save]
    have hsh : (freshApp (save s false)).lego_history = Stored.value s.history := by
      simp [freshApp, save]
    simp only [load, hst, hsh, hload]
  · simpa [freshApp, save, App.initial] using hb

theorem save_load_round_trip_witness :
    ∃ s1, load (freshApp (save oneBrickScene false)) (fun k => k) = some s1 ∧
      s1.bricks.map Mesh.brickData = oneBrickScene.bricks.map Mesh.brickData ∧
      s1.history = oneBrickScene.history :=
  save_load_round_trip oneBrickScene (fun k => k) (by
    intro m hm
    rw [oneBrickScene_bricks] at hm
    simp only [List.mem_singleton] at hm
    subst hm
    simp [specs, CATALOG])

/-- C14 as stated fails: the stored list of `partlyReadable` cannot be loaded
in full, its second record names the unknown spec `b9x9`; after `load` the
part made from the first record is in the part list and its box in the box
list. -/
theorem load_keeps_part_of_unreadable_list :
    specs "b9x9" = none ∧ "b9x9" ∉ inheritedKeys ∧
    ∃ s1, load partlyReadable (fun k => k) = some s1 ∧
      s1.bricks.map Mesh.brickData =
        [{ specId := "b2x4", color := 0xcc0000, pos := ⟨0, 0, 0⟩, rot := 0 }] ∧
      s1.collisionBoxes.length = 1 := by
  have hbad : specs "b9x9" = none := by simp [specs, CATALOG]
  have hplain : "b9x9" ∉ inheritedKeys := by decide
  have hstop := addBricks_stops_at_unknown (fun k => k)
    { specId := "b9x9", color := 0xcc0000, pos := ⟨40, 0, 0⟩, rot := 0 } [] hbad hplain
    [{ specId := "b2x4", color := 0xcc0000, pos := ⟨0, 0, 0⟩, rot := 0 }] partlyReadable 0
    (by simp [specs, CATALOG])
  obtain ⟨s1, hk, hb, hc, _⟩ := addBricks_known (fun k => k)
    [{ specId := "b2x4", color := 0xcc0000, pos := ⟨0, 0, 0⟩, rot := 0 }] partlyReadable 0
    (by simp [specs, CATALOG])
  have hst : partlyReadable.lego_bricks = Stored.value
      ([{ specId := "b2x4", color := 0xcc0000, pos := ⟨0, 0, 0⟩, rot := 0 }] ++
        { specId := "b9x9", color := 0xcc0000, pos := ⟨40, 0, 0⟩, rot := 0 } :: []) := rfl
  have hsh : partlyReadable.lego_history = Stored.missing := rfl
  refine ⟨hbad, hplain, s1, ?_, ?_, ?_⟩
  · simp only [load, hst, hsh, hstop, hk]
  · rw [hb]; simp [partlyReadable, App.initial]
  · rw [hc]; simp [partlyReadable, App.initial]

/-- C14, amended: `load` always returns.  When the stored part list is a
string that `JSON.parse` rejects, or a value that is not an array, no part is
added.  When it is a list of records in which the record `bad` is the first
not to name a catalog spec, and the lookup of its spec id is `undefined` (the
id is no property name inherited from `Object.prototype`), the parts of the
records before `bad` are added in order, with their boxes, and `bad` and the
records after it are dropped.  (The stored history is assumed to be absent,
unparsable or a list.) -/
theorem load_adds_records_before_first_unknown (f : App) (ids : Nat → ℚ)
    (pre : List BrickData) (bad : BrickData) (post : List BrickData)
    (hst : f.lego_bricks = Stored.value (pre ++ bad :: post))
    (hpre : ∀ r ∈ pre, specs r.specId ≠ none)
    (hbad : specs bad.specId = none) (hplain : bad.specId ∉ inheritedKeys)
    (hhist : f.lego_history ≠ Stored.notArray) :
    (∃ s1, load f ids = some s1 ∧
      s1.bricks.map Mesh.brickData = f.bricks.map Mesh.brickData ++ pre ∧
      s1.collisionBoxes.length = f.collisionBoxes.length + pre.length) ∧
    (∃ s2, load { f with lego_bricks := Stored.malformed } ids = some s2 ∧
      s2.bricks = f.bricks ∧ s2.collisionBoxes = f.collisionBoxes) ∧
    (∃ s3, load { f with lego_bricks := Stored.notArray } ids = some s3 ∧
      s3.bricks = f.bricks ∧ s3.collisionBoxes = f.collisionBoxes) := by
  have hstop := addBricks_stops_at_unknown ids bad post hbad hplain pre f 0 hpre
  obtain ⟨s1, hk, hb, hc, _⟩ := addBricks_known ids pre f 0 hpre
  refine ⟨?_, ?_, ?_⟩
  · cases hh : f.lego_history with
    | notArray => exact absurd hh hhist
    | missing => exact ⟨s1, by simp only [load, hst, hh, hstop, hk], hb, hc⟩
    | malformed => exact ⟨s1, by simp only [load, hst, hh, hstop, hk], hb, hc⟩
    | value h =>
      exact ⟨{ s1 with history := h }, by simp only [load, hst, hh, hstop, hk], hb, hc⟩
  · cases hh : f.lego_history with
    | notArray => exact absurd hh hhist
    | missing =>
      exact ⟨{ f with lego_bricks := Stored.malformed }, by simp [load, hh], rfl, rfl⟩
    | malformed =>
      exact ⟨{ f with lego_bricks := Stored.malformed }, by simp [load, hh], rfl, rfl⟩
    | value h =>
      exact ⟨{ f with lego_bricks := Stored.malformed, history := h }, by simp [load, hh],
        rfl, rfl⟩
  · cases hh : f.lego_history with
    | notArray => exact absurd hh hhist
    | missing =>
      exact ⟨{ f with lego_bricks := Stored.notArray }, by simp [load, hh], rfl, rfl⟩
    | malformed =>
      exact ⟨{ f with lego_bricks := Stored.notArray }, by simp [load, hh], rfl, rfl⟩
    | value h =>
      exact ⟨{ f with lego_bricks := Stored.notArray, history := h }, by simp [load, hh],
        rfl, rfl⟩

theorem load_adds_records_before_first_unknown_witness :
    (∃ s1, load partlyReadable (fun k => k) = some s1 ∧
      s1.bricks.map Mesh.brickData =
        partlyReadable.bricks.map Mesh.brickData ++
          [{ specId := "b2x4", color := 0xcc0000, pos := ⟨0, 0, 0⟩, rot := 0 }] ∧
      s1.collisionBoxes.length =
        partlyReadable.collisionBoxes.length +
          [({ specId := "b2x4", color := 0xcc0000, pos := ⟨0, 0, 0⟩, rot := 0 } :
            BrickData)].length) ∧
    (∃ s2, load { partlyReadable with lego_bricks := Stored.malformed } (fun k => k) = some s2 ∧
      s2.bricks = partlyReadable.bricks ∧ s2.collisionBoxes = partlyReadable.collisionBoxes) ∧
    (∃ s3, load { partlyReadable with lego_bricks := Stored.notArray } (fun k => k) = some s3 ∧
      s3.bricks = partlyReadable.bricks ∧ s3.collisionBoxes = partlyReadable.collisionBoxes) :=
  load_adds_records_before_first_unknown partlyReadable (fun k => k)
    [{ specId := "b2x4", color := 0xcc0000, pos := ⟨0, 0, 0⟩, rot := 0 }]
    { specId := "b9x9", color := 0xcc0000, pos := ⟨40, 0, 0⟩, rot := 0 } []
    rfl (by simp [specs, CATALOG]) (by simp [specs, CATALOG]) (by decide)
    (by simp [partlyReadable, App.initial])

/-! ## Studs -/

theorem grid_length {α : Type} (f : Nat → Nat → α) (d : Nat) :
    ∀ w : Nat, ((List.range w).flatMap (fun x => (List.range d).map (f x))).length = w * d
  | 0 => by simp
  | w + 1 => by
    rw [List.range_succ, List.flatMap_append, List.length_append, grid_length f d w]
    simp [Nat.succ_mul]

theorem grid_getElem {α : Type} (f : Nat → Nat → α) (d : Nat) :
    ∀ (w i j : Nat), i < w → j < d →
      ((List.range w).flatMap (fun x => (List.range d).map (f x)))[i * d + j]? = some (f i j)
  | 0, i, j, hi, _ => by omega
  | w + 1, i, j, hi, hj => by
    rw [List.range_succ, List.flatMap_append]
    by_cases hiw : i < w
    · have hlt : i * d + j < ((List.range w).flatMap
          (fun x => (List.range d).map (f x))).length := by
        rw [grid_length]
        calc i * d + j < i * d + d := by omega
          _ = (i + 1) * d := by rw [Nat.succ_mul]
          _ ≤ w * d := Nat.mul_le_mul_right d hiw
      rw [List.getElem?_append_left hlt]
      exact grid_getElem f d w i j hiw hj
    · have hiw2 : i = w := by omega
      subst hiw2
      have hge : ((List.range i).flatMap
          (fun x => (List.range d).map (f x))).length ≤ i * d + j := by
        rw [grid_length]; omega
      rw [List.getElem?_append_right hge, grid_length]
      simp [hj]

theorem grid_mem {α : Type} (f : Nat → Nat → α) (w d : Nat) (a : α)
    (h : a ∈ (List.range w).flatMap (fun x => (List.range d).map (f x))) :
    ∃ i j, i < w ∧ j < d ∧ a = f i j := by
  simp only [List.mem_flatMap, List.mem_range, List.mem_map] at h
  obtain ⟨i, hi, j, hj, rfl⟩ := h
  exact ⟨i, j, hi, hj, rfl⟩

/-- The stud of cell `(i, j)` as the stud loop builds it. -/
theorem studLoop_getElem (spec : Spec) (h : ℚ) (material : Option Material) (i j : Nat)
    (hi : i < spec.w) (hj : j < spec.d) :
    (studLoop spec h material)[i * spec.d + j]? =
      some { geometry :=
               { shape := Shape.cylinder STUD_R STUD_R STUD_H 12, uv := false,
                 transforms :=
                   [Transform.translate 0 (h + STUD_H / 2) 0,
                    Transform.translate (((i : ℚ) - ((spec.w : ℚ) - 1) / 2) * UNIT) 0
                      (((j : ℚ) - ((spec.d : ℚ) - 1) / 2) * UNIT)] },
             material := material } := by
  unfold studLoop
  simp only
  rw [grid_getElem _ spec.d spec.w i j hi hj]
  simp only [getStud, Geometry.new, Geometry.deleteUv, Geometry.apply, List.nil_append,
    List.singleton_append, UNIT, Option.some.injEq, Part.mk.injEq, Geometry.mk.injEq,
    List.cons.injEq, Transform.translate.injEq, and_true, true_and]
  constructor <;> ring

theorem studLoop_length (spec : Spec) (h : ℚ) (material : Option Material) :
    (studLoop spec h material).length = spec.w * spec.d := by
  unfold studLoop
  simp only
  exact grid_length _ spec.d spec.w

theorem studLoop_mem (spec : Spec) (h : ℚ) (material : Option Material) (p : Part)
    (hp : p ∈ studLoop spec h material) :
    p.geometry.isStud = true ∧ p.material = material ∧
    ∃ x z, translationOf p.geometry.transforms = some ⟨x, h + STUD_H / 2, z⟩ := by
  unfold studLoop at hp
  simp only at hp
  obtain ⟨i, j, _, _, rfl⟩ := grid_mem _ spec.w spec.d p hp
  refine ⟨by simp [Geometry.isStud, getStud, Geometry.new, Geometry.deleteUv, Geometry.apply],
    rfl, ?_⟩
  simp [getStud, Geometry.new, Geometry.deleteUv, Geometry.apply, translationOf]

/-- C16: `buildStandardPart` with studs returns the body followed by exactly
`w * d` studs; the stud of cell `(i, j)` is the entry `1 + i * d + j`, a
cylinder moved to `x = (i - (w-1)/2) * UNIT`, `z = (j - (d-1)/2) * UNIT`, the
centre of that cell of the footprint centred at the origin, with its centre at
`y = h + STUD_H / 2`, so that its base is at `y = h`. -/
theorem buildStandardPart_studs (spec : Spec) (i j : Nat) (hi : i < spec.w) (hj : j < spec.d) :
    (buildStandardPart spec true).length = 1 + spec.w * spec.d ∧
    (buildStandardPart spec true)[0]? =
      some { geometry :=
               { shape := Shape.roundedBox ((spec.w : ℚ) * UNIT - GAP) spec.h
                   ((spec.d : ℚ) * UNIT - GAP) SEGMENTS (1 / 2),
                 uv := false, transforms := [Transform.translate 0 (spec.h / 2) 0] },
             material := none } ∧
    (∀ p ∈ (buildStandardPart spec true).drop 1, p.geometry.isStud = true) ∧
    (∃ stud, (buildStandardPart spec true)[1 + i * spec.d + j]? = some stud ∧
      stud.geometry.isStud = true ∧
      translationOf stud.geometry.transforms =
        some ⟨((i : ℚ) - ((spec.w : ℚ) - 1) / 2) * UNIT, spec.h + STUD_H / 2,
              ((j : ℚ) - ((spec.d : ℚ) - 1) / 2) * UNIT⟩ ∧
      ((i : ℚ) - ((spec.w : ℚ) - 1) / 2) * UNIT =
        -((spec.w : ℚ) * UNIT) / 2 + (i : ℚ) * UNIT + UNIT / 2 ∧
      ((j : ℚ) - ((spec.d : ℚ) - 1) / 2) * UNIT =
        -((spec.d : ℚ) * UNIT) / 2 + (j : ℚ) * UNIT + UNIT / 2 ∧
      (spec.h + STUD_H / 2) - STUD_H / 2 = spec.h) := by
  have hparts : buildStandardPart spec true =
      { geometry :=
          { shape := Shape.roundedBox ((spec.w : ℚ) * UNIT - GAP) spec.h
              ((spec.d : ℚ) * UNIT - GAP) SEGMENTS (1 / 2),
            uv := false, transforms := [Transform.translate 0 (spec.h / 2) 0] },
        material := none } :: studLoop spec spec.h none := by
    simp [buildStandardPart, Geometry.new, Geometry.deleteUv, Geometry.apply]
  rw [hparts]
  refine ⟨?_, by simp, ?_, ?_⟩
  · rw [List.length_cons, studLoop_length]; omega
  · intro p hp
    exact (studLoop_mem spec spec.h none p (by simpa using hp)).1
  · refine ⟨{ geometry :=
                { shape := Shape.cylinder STUD_R STUD_R STUD_H 12, uv := false,
                  transforms :=
                    [Transform.translate 0 (spec.h + STUD_H / 2) 0,
                     Transform.translate (((i : ℚ) - ((spec.w : ℚ) - 1) / 2) * UNIT) 0
                       (((j : ℚ) - ((spec.d : ℚ) - 1) / 2) * UNIT)] },
              material := none }, ?_, ?_, ?_, by ring, by ring, by ring⟩
    · rw [show 1 + i * spec.d + j = (i * spec.d + j) + 1 by omega, List.getElem?_cons_succ]
      exact studLoop_getElem spec spec.h none i j hi hj
    · simp [Geometry.isStud]
    · simp [translationOf]

theorem buildStandardPart_studs_witness :
    (buildStandardPart (baseSpec 2 4 24) true).length = 1 + 2 * 4 ∧
    (buildStandardPart (baseSpec 2 4 24) true)[0]? =
      some { geometry :=
               { shape := Shape.roundedBox (((2 : Nat) : ℚ) * UNIT - GAP) 24
                   (((4 : Nat) : ℚ) * UNIT - GAP) SEGMENTS (1 / 2),
                 uv := false, transforms := [Transform.translate 0 (24 / 2) 0] },
             material := none } ∧
    (∀ p ∈ (buildStandardPart (baseSpec 2 4 24) true).drop 1, p.geometry.isStud = true) ∧
    (∃ stud, (buildStandardPart (baseSpec 2 4 24) true)[1 + 1 * 4 + 3]? = some stud ∧
      stud.geometry.isStud = true ∧
      translationOf stud.geometry.transforms =
        some ⟨(((1 : Nat) : ℚ) - (((2 : Nat) : ℚ) - 1) / 2) * UNIT, 24 + STUD_H / 2,
              (((3 : Nat) : ℚ) - (((4 : Nat) : ℚ) - 1) / 2) * UNIT⟩ ∧
      (((1 : Nat) : ℚ) - (((2 : Nat) : ℚ) - 1) / 2) * UNIT =
        -(((2 : Nat) : ℚ) * UNIT) / 2 + ((1 : Nat) : ℚ) * UNIT + UNIT / 2 ∧
      (((3 : Nat) : ℚ) - (((4 : Nat) : ℚ) - 1) / 2) * UNIT =
        -(((4 : Nat) : ℚ) * UNIT) / 2 + ((3 : Nat) : ℚ) * UNIT + UNIT / 2 ∧
      ((24 : ℚ) + STUD_H / 2) - STUD_H / 2 = 24) :=
  buildStandardPart_studs (baseSpec 2 4 24) 1 3 (by decide) (by decide)

/-! ## Studs of the slope builders -/

theorem filter_studLoop (spec : Spec) (h : ℚ) (material : Option Material) :
    (studLoop spec h material).filter (fun p => p.geometry.isStud) = studLoop spec h material := by
  rw [List.filter_eq_self]
  intro p hp
  exact (studLoop_mem spec h material p hp).1

theorem buildSlopeParts_studs (spec : Spec) :
    (buildSlopeParts spec).filter (fun p => p.geometry.isStud) =
      studLoop spec (spec.h - 8) none := by
  unfold buildSlopeParts
  simp only [List.filter_append, filter_studLoop]
  split_ifs <;>
    simp [Geometry.isStud, Geometry.new, Geometry.apply]

theorem buildInverseSlopeParts_studs (spec : Spec) :
    (buildInverseSlopeParts spec).filter (fun p => p.geometry.isStud) =
      studLoop spec spec.h none := by
  unfold buildInverseSlopeParts
  simp only [List.filter_append, filter_studLoop]
  split_ifs <;>
    simp [Geometry.isStud, Geometry.new, Geometry.apply]

/-- C17 as stated fails: the sub-shape list that `buildSlope` assembles for
the catalog part `slope2x4` holds 8 studs, one per footprint cell. -/
theorem buildSlope_emits_studs :
    (specs "slope2x4").map
        (fun spec => ((buildSlopeParts spec).filter (fun p => p.geometry.isStud)).length) =
      some 8 := by
  have h : specs "slope2x4" = some ⟨"slope2x4", "compound", 2, 4, 24, some "buildSlope"⟩ := by
    simp [specs, CATALOG]
  rw [h]
  simp only [Option.map_some']
  rw [buildSlopeParts_studs, studLoop_length]
  rfl

/-- C17, amended: both slope builders emit exactly one stud per footprint
cell.  The studs of `buildInverseSlope` stand on top of the part (centre at
`y = h + STUD_H / 2`, base at `y = h`); the studs of `buildSlope` stand on the
base block under the wedge (centre at `y = h - 8 + STUD_H / 2`, base at
`y = h - 8`). -/
theorem slope_builders_studs (spec : Spec) :
    (buildSlopeParts spec).filter (fun p => p.geometry.isStud) =
      studLoop spec (spec.h - 8) none ∧
    (buildInverseSlopeParts spec).filter (fun p => p.geometry.isStud) =
      studLoop spec spec.h none ∧
    ((buildSlopeParts spec).filter (fun p => p.geometry.isStud)).length = spec.w * spec.d ∧
    ((buildInverseSlopeParts spec).filter (fun p => p.geometry.isStud)).length =
      spec.w * spec.d ∧
    (∀ p ∈ (buildSlopeParts spec).filter (fun p => p.geometry.isStud),
      ∃ x z, translationOf p.geometry.transforms = some ⟨x, spec.h - 8 + STUD_H / 2, z⟩) ∧
    (∀ p ∈ (buildInverseSlopeParts spec).filter (fun p => p.geometry.isStud),
      ∃ x z, translationOf p.geometry.transforms = some ⟨x, spec.h + STUD_H / 2, z⟩) := by
  rw [buildSlopeParts_studs, buildInverseSlopeParts_studs, studLoop_length, studLoop_length]
  refine ⟨rfl, rfl, rfl, rfl, ?_, ?_⟩
  · intro p hp
    exact (studLoop_mem spec (spec.h - 8) none p hp).2.2
  · intro p hp
    exact (studLoop_mem spec spec.h none p hp).2.2

/-! ## Grouping by material -/

theorem mem_firstKeys (k : MatKey) : ∀ ks : List MatKey, k ∈ firstKeys ks ↔ k ∈ ks
  | [] => by simp [firstKeys]
  | a :: ks => by
    simp only [firstKeys, List.mem_cons, List.mem_filter, decide_eq_true_eq, mem_firstKeys k ks]
    constructor
    · rintro (h | ⟨h, _⟩)
      · exact Or.inl h
      · exact Or.inr h
    · rintro (h | h)
      · exact Or.inl h
      · by_cases hka : k = a
        · exact Or.inl hka
        · exact Or.inr ⟨h, hka⟩

theorem firstKeys_nodup : ∀ ks : List MatKey, (firstKeys ks).Nodup
  | [] => by simp [firstKeys]
  | a :: ks => by
    simp only [firstKeys, List.nodup_cons, List.mem_filter, decide_eq_true_eq]
    exact ⟨fun h => h.2 rfl, (firstKeys_nodup ks).filter _⟩

theorem firstKeys_concat (k : MatKey) :
    ∀ ks : List MatKey,
      firstKeys (ks ++ [k]) = if k ∈ ks then firstKeys ks else firstKeys ks ++ [k]
  | [] => by simp [firstKeys]
  | a :: ks => by
    have ih := firstKeys_concat k ks
    rw [List.cons_append]
    show a :: (firstKeys (ks ++ [k])).filter (fun k1 => decide (k1 ≠ a)) = _
    rw [ih]
    by_cases hk : k ∈ ks
    · simp [hk, firstKeys]
    · by_cases hka : k = a
      · subst hka
        simp [hk, firstKeys, List.filter_append]
      · have hak : ¬ a = k := fun h => hka h.symm
        simp [hk, hka, hak, firstKeys, List.filter_append]

theorem geometriesOf_concat (parts : List Part) (p : Part) (k : MatKey) :
    geometriesOf (parts ++ [p]) k =
      if p.matKey = k then geometriesOf parts k ++ [p.geometry] else geometriesOf parts k := by
  unfold geometriesOf
  by_cases h : p.matKey = k
  · simp [List.filter_append, h]
  · simp [List.filter_append, h]

theorem geometriesOf_absent (parts : List Part) (k : MatKey)
    (h : k ∉ parts.map Part.matKey) : geometriesOf parts k = [] := by
  unfold geometriesOf
  simp only [List.map_eq_nil_iff, List.filter_eq_nil_iff, decide_eq_true_eq]
  intro p hp hk
  exact h (List.mem_map.mpr ⟨p, hp, hk⟩)

theorem geometriesOf_present (parts : List Part) (k : MatKey)
    (h : k ∈ parts.map Part.matKey) : geometriesOf parts k ≠ [] := by
  obtain ⟨p, hp, hk⟩ := List.mem_map.mp h
  unfold geometriesOf
  intro hnil
  simp only [List.map_eq_nil_iff, List.filter_eq_nil_iff, decide_eq_true_eq] at hnil
  exact hnil p hp hk

/-- The group of a key, as the first loop leaves it. -/
theorem geoByMat_eq (currentColor : Nat) (parts : List Part) :
    geoByMat currentColor parts =
      (firstKeys (parts.map Part.matKey)).map (fun k =>
        { key := k, geometries := geometriesOf parts k,
          material := k.material currentColor }) := by
  induction parts using List.reverseRecOn with
  | nil => simp [geoByMat, firstKeys]
  | append_singleton parts p ih =>
    unfold geoByMat at ih ⊢
    rw [List.foldl_append, ih]
    simp only [List.foldl_cons, List.foldl_nil, List.map_append, List.map_cons, List.map_nil,
      firstKeys_concat]
    have hany : ((firstKeys (parts.map Part.matKey)).map (fun k =>
        ({ key := k, geometries := geometriesOf parts k,
           material := k.material currentColor } : MatGroup))).any
          (fun g => decide (g.key = p.matKey)) = decide (p.matKey ∈ parts.map Part.matKey) := by
      rw [Bool.eq_iff_iff]
      simp only [List.any_eq_true, List.mem_map, decide_eq_true_eq]
      constructor
      · rintro ⟨g, ⟨k, hk, rfl⟩, hg⟩
        simp only at hg
        rw [← hg]
        exact List.mem_map.mp ((mem_firstKeys k _).mp hk)
      · intro h
        exact ⟨_, ⟨p.matKey, (mem_firstKeys _ _).mpr (List.mem_map.mpr h), rfl⟩, rfl⟩
    rw [hany]
    have hmat : (match p.material with
        | some material => material
        | none => getMaterial currentColor) = p.matKey.material currentColor := by
      unfold Part.matKey
      cases p.material <;> rfl
    by_cases hmem : p.matKey ∈ parts.map Part.matKey
    · simp only [hmem, decide_True, if_true, List.map_map]
      apply List.map_congr_left
      intro k _
      simp only [Function.comp, geometriesOf_concat]
      by_cases hk : p.matKey = k
      · simp [hk]
      · have hk2 : ¬ k = p.matKey := fun h => hk h.symm
        simp [hk, hk2]
    · simp only [hmem, decide_False, if_false, List.map_append, List.map_map, List.map_cons,
        List.map_nil, Bool.false_eq_true]
      congr 1
      · apply List.map_congr_left
        intro k hk
        have hne : k ≠ p.matKey := by
          intro h
          rw [h] at hk
          exact hmem ((mem_firstKeys _ _).mp hk)
        have hne2 : ¬ p.matKey = k := fun h => hne h.symm
        simp [Function.comp, geometriesOf_concat, hne, hne2]
      · simp [geometriesOf_concat, geometriesOf_absent parts p.matKey hmem, hmat]

theorem geoByMat_nonempty (currentColor : Nat) (parts : List Part) (g : MatGroup)
    (hg : g ∈ geoByMat currentColor parts) : g.geometries ≠ [] := by
  rw [geoByMat_eq] at hg
  obtain ⟨k, hk, rfl⟩ := List.mem_map.mp hg
  exact geometriesOf_present parts k ((mem_firstKeys k _).mp hk)

theorem foldl_push {α β : Type} (f : α → β) (l : List α) (acc : List β) :
    l.foldl (fun a x => a ++ [f x]) acc = acc ++ l.map f := by
  induction l generalizing acc with
  | nil => simp
  | cons x l ih => simp [ih]

theorem mergeUnits_foldl (mergeOk : List Geometry → Bool) :
    ∀ (groups : List MatGroup) (acc : List RenderUnit),
      (∀ g ∈ groups, g.geometries ≠ []) →
      groups.foldl
        (fun mergedObjects g =>
          if g.geometries.length > 0 then
            if mergeOk g.geometries then
              mergedObjects ++
                [{ geometries := g.geometries, merged := true, material := g.material,
                   edges := decide (g.material ≠ Material.glass) }]
            else
              g.geometries.foldl
                (fun acc geo =>
                  acc ++ [{ geometries := [geo], merged := false, material := g.material,
                            edges := false }])
                mergedObjects
          else mergedObjects)
        acc = acc ++ groups.flatMap (unitsOfGroup mergeOk)
  | [], acc, _ => by simp
  | g :: groups, acc, h => by
    have hg : g.geometries.length > 0 :=
      List.length_pos.mpr (h g (List.mem_cons_self g groups))
    rw [List.foldl_cons, mergeUnits_foldl mergeOk groups _
      (fun x hx => h x (List.mem_cons_of_mem g hx))]
    simp only [hg, if_true, List.flatMap_cons, unitsOfGroup]
    split_ifs
    · simp
    · rw [foldl_push]
      simp

/-- The render units are the contributions of the groups, in group order. -/
theorem mergeCompoundGeometries_eq (mergeOk : List Geometry → Bool) (currentColor : Nat)
    (parts : List Part) :
    mergeCompoundGeometries mergeOk currentColor parts =
      (geoByMat currentColor parts).flatMap (unitsOfGroup mergeOk) := by
  unfold mergeCompoundGeometries
  rw [mergeUnits_foldl mergeOk _ [] (geoByMat_nonempty currentColor parts)]
  simp

/-! ## Construction when a merge fails -/

theorem getLegoPart_compound (mergeOk : List Geometry → Bool) (geoCache : GeoCache)
    (currentColor : Nat) (spec : Spec) (hcat : spec ∈ CATALOG)
    (htype : spec.type = "compound") :
    getLegoPart mergeOk geoCache currentColor spec =
      some (LegoPart.compound (mergeCompoundGeometries mergeOk currentColor (builderParts spec)),
            geoCache) := by
  simp only [CATALOG, List.mem_cons, List.mem_singleton, List.not_mem_nil, or_false] at hcat
  rcases hcat with h | h | h | h | h | h | h | h | h | h | h | h | h | h | h | h | h <;>
    subst h <;>
    first
    | (exfalso; revert htype; decide)
    | simp [getLegoPart, builderParts, buildTree, buildFlower, buildDoor, buildWindow,
        buildSlope, buildInverseSlope]

theorem studLoop_uv (spec : Spec) (h : ℚ) (material : Option Material) (p : Part)
    (hp : p ∈ studLoop spec h material) : p.geometry.uv = false := by
  unfold studLoop at hp
  simp only at hp
  obtain ⟨i, j, _, _, rfl⟩ := grid_mem _ spec.w spec.d p hp
  rfl

/-- The body and the studs of a simple part all lack `uv`: the library merges
them. -/
theorem buildStandardPart_merges (spec : Spec) :
    mergeGeometriesOk ((buildStandardPart spec true).map (fun p => p.geometry)) = true := by
  simp only [buildStandardPart, if_true, List.map_append, List.map_cons, List.map_nil,
    List.singleton_append, mergeGeometriesOk, List.all_eq_true, List.mem_map, beq_iff_eq]
  rintro g ⟨p, hp, rfl⟩
  rw [studLoop_uv spec spec.h none p hp]
  rfl

/-- C15: for every catalog part `getLegoPart` returns a drawable, whatever
merges fail.  For a compound part the cache is untouched and the render units
are the contributions of the material groups of the builder list, in order: a
group whose merge fails contributes its sub-shapes as one unmerged unit each,
in order; a group whose merge succeeds contributes one merged unit; no group
depends on the merge of another.  For a simple part the merge is not guarded,
and it cannot fail: the body and the studs all lack `uv`, so the library
merges them, and `getLegoPart` returns the cached or the merged geometry. -/
theorem getLegoPart_survives_failed_merge (mergeOk : List Geometry → Bool)
    (geoCache : GeoCache) (currentColor : Nat) (spec : Spec) (hcat : spec ∈ CATALOG) :
    (spec.type = "compound" →
      getLegoPart mergeOk geoCache currentColor spec =
        some (LegoPart.compound
                ((geoByMat currentColor (builderParts spec)).flatMap (unitsOfGroup mergeOk)),
              geoCache) ∧
      (∀ g ∈ geoByMat currentColor (builderParts spec), mergeOk g.geometries = false →
        unitsOfGroup mergeOk g =
          g.geometries.map (fun geo =>
            { geometries := [geo], merged := false, material := g.material, edges := false })) ∧
      (∀ g ∈ geoByMat currentColor (builderParts spec), mergeOk g.geometries = true →
        unitsOfGroup mergeOk g =
          [{ geometries := g.geometries, merged := true, material := g.material,
             edges := decide (g.material ≠ Material.glass) }])) ∧
    (spec.type ≠ "compound" →
      mergeGeometriesOk ((buildStandardPart spec true).map (fun p => p.geometry)) = true ∧
      ∃ geo cache1,
        getLegoPart mergeGeometriesOk geoCache currentColor spec =
          some (LegoPart.geometry geo, cache1)) := by
  constructor
  · intro htype
    refine ⟨?_, ?_, ?_⟩
    · rw [getLegoPart_compound mergeOk geoCache currentColor spec hcat htype,
        mergeCompoundGeometries_eq]
    · intro g _ hg
      simp [unitsOfGroup, hg]
    · intro g _ hg
      simp [unitsOfGroup, hg]
  · intro htype
    refine ⟨buildStandardPart_merges spec, ?_⟩
    cases hc : geoCache.lookup (spec.id, currentColor) with
    | some geo => exact ⟨geo, geoCache, by simp [getLegoPart, htype, hc]⟩
    | none =>
      exact ⟨(buildStandardPart spec true).map (fun p => p.geometry),
        geoCache ++ [((spec.id, currentColor),
          (buildStandardPart spec true).map (fun p => p.geometry))],
        by simp [getLegoPart, htype, hc, buildStandardPart_merges spec]⟩

theorem getLegoPart_survives_failed_merge_witness :
    ((⟨"pre_flower", "compound", 1, 1, 32, some "buildFlower"⟩ : Spec).type = "compound" →
      getLegoPart mergeGeometriesOk [] 0xcc0000
          ⟨"pre_flower", "compound", 1, 1, 32, some "buildFlower"⟩ =
        some (LegoPart.compound
                ((geoByMat 0xcc0000
                    (builderParts ⟨"pre_flower", "compound", 1, 1, 32, some "buildFlower"⟩)).flatMap
                  (unitsOfGroup mergeGeometriesOk)), []) ∧
      (∀ g ∈ geoByMat 0xcc0000
            (builderParts ⟨"pre_flower", "compound", 1, 1, 32, some "buildFlower"⟩),
        mergeGeometriesOk g.geometries = false →
        unitsOfGroup mergeGeometriesOk g =
          g.geometries.map (fun geo =>
            { geometries := [geo], merged := false, material := g.material, edges := false })) ∧
      (∀ g ∈ geoByMat 0xcc0000
            (builderParts ⟨"pre_flower", "compound", 1, 1, 32, some "buildFlower"⟩),
        mergeGeometriesOk g.geometries = true →
        unitsOfGroup mergeGeometriesOk g =
          [{ geometries := g.geometries, merged := true, material := g.material,
             edges := decide (g.material ≠ Material.glass) }])) ∧
    ((⟨"pre_flower", "compound", 1, 1, 32, some "buildFlower"⟩ : Spec).type ≠ "compound" →
      mergeGeometriesOk
          ((buildStandardPart ⟨"pre_flower", "compound", 1, 1, 32, some "buildFlower"⟩ true).map
            (fun p => p.geometry)) = true ∧
      ∃ geo cache1,
        getLegoPart mergeGeometriesOk [] 0xcc0000
            ⟨"pre_flower", "compound", 1, 1, 32, some "buildFlower"⟩ =
          some (LegoPart.geometry geo, cache1)) :=
  getLegoPart_survives_failed_merge mergeGeometriesOk [] 0xcc0000
    ⟨"pre_flower", "compound", 1, 1, 32, some "buildFlower"⟩ (by simp [CATALOG])

/-! ## Render units and materials -/

theorem effectiveMaterial_eq (currentColor : Nat) (p : Part) :
    p.effectiveMaterial currentColor = p.matKey.material currentColor := by
  unfold Part.effectiveMaterial Part.matKey
  cases p.material <;> rfl

theorem mem_geometriesOf (parts : List Part) (p : Part) (hp : p ∈ parts) :
    p.geometry ∈ geometriesOf parts p.matKey := by
  unfold geometriesOf
  exact List.mem_map.mpr ⟨p, List.mem_filter.mpr ⟨hp, by simp⟩, rfl⟩

theorem flatMap_unitsOfGroup_merged (mergeOk : List Geometry → Bool) :
    ∀ groups : List MatGroup, (∀ g ∈ groups, mergeOk g.geometries = true) →
      groups.flatMap (unitsOfGroup mergeOk) =
        groups.map (fun g =>
          { geometries := g.geometries, merged := true, material := g.material,
            edges := decide (g.material ≠ Material.glass) })
  | [], _ => by simp
  | g :: groups, h => by
    rw [List.flatMap_cons, List.map_cons,
      flatMap_unitsOfGroup_merged mergeOk groups (fun x hx => h x (List.mem_cons_of_mem g hx))]
    simp [unitsOfGroup, h g (List.mem_cons_self g groups)]

/-- The render units when the merge of every group succeeds: one per key, in
order of first appearance. -/
theorem mergeCompoundGeometries_all_merged (mergeOk : List Geometry → Bool)
    (currentColor : Nat) (parts : List Part)
    (hok : ∀ g ∈ geoByMat currentColor parts, mergeOk g.geometries = true) :
    mergeCompoundGeometries mergeOk currentColor parts =
      (firstKeys (parts.map Part.matKey)).map (fun k =>
        { geometries := geometriesOf parts k, merged := true,
          material := k.material currentColor,
          edges := decide (k.material currentColor ≠ Material.glass) }) := by
  rw [mergeCompoundGeometries_eq, flatMap_unitsOfGroup_merged mergeOk _ hok, geoByMat_eq,
    List.map_map]
  rfl

theorem buildFlowerParts_keys :
    firstKeys (buildFlowerParts.map Part.matKey) =
      [MatKey.uuid (Material.standard 0x228b22), MatKey.default,
       MatKey.uuid (Material.standard 0xFFC300)] := by
  simp [buildFlowerParts, buildStandardPart, studLoop, baseSpec, Part.matKey, getMaterial,
    firstKeys, List.range_succ, List.flatMap]

theorem buildTreeParts_keys :
    firstKeys (buildTreeParts.map Part.matKey) =
      [MatKey.uuid (Material.standard 0x8B4513), MatKey.uuid (Material.standard 0x228b22)] := by
  simp [buildTreeParts, buildStandardPart, studLoop, baseSpec, Part.matKey, getMaterial,
    firstKeys, List.range_succ, List.flatMap]

theorem activeColorParts_keys :
    firstKeys (activeColorParts.map Part.matKey) =
      [MatKey.default, MatKey.uuid (Material.standard 0x228b22)] := by
  simp [activeColorParts, buildStandardPart, studLoop, baseSpec, Part.matKey, getMaterial,
    firstKeys, List.range_succ, List.flatMap]

/-- Every sub-shape of the tree lacks `uv`. -/
theorem buildTreeParts_uv (p : Part) (hp : p ∈ buildTreeParts) : p.geometry.uv = false := by
  simp only [buildTreeParts, buildStandardPart, if_true, List.mem_append, List.mem_map,
    List.mem_cons, List.mem_singleton, List.not_mem_nil, or_false] at hp
  rcases hp with ⟨q, hq | hq, rfl⟩ | hp | hp
  · subst hq; rfl
  · exact studLoop_uv _ _ _ q hq
  · subst hp; rfl
  · subst hp; rfl

/-- Every sub-shape of `activeColorParts` lacks `uv`. -/
theorem activeColorParts_uv (p : Part) (hp : p ∈ activeColorParts) :
    p.geometry.uv = false := by
  simp only [activeColorParts, buildStandardPart, if_true, List.mem_append, List.mem_cons,
    List.mem_singleton, List.not_mem_nil, or_false] at hp
  rcases hp with (hp | hp) | hp
  · subst hp; rfl
  · exact studLoop_uv _ _ _ p hp
  · subst hp; rfl

/-- The library merges every group of a list whose sub-shapes all lack `uv`. -/
theorem merges_of_uv_free (currentColor : Nat) (parts : List Part)
    (huv : ∀ p ∈ parts, p.geometry.uv = false) :
    ∀ g ∈ geoByMat currentColor parts, mergeGeometriesOk g.geometries = true := by
  intro g hg
  have hne := geoByMat_nonempty currentColor parts g hg
  rw [geoByMat_eq] at hg
  obtain ⟨k, _, rfl⟩ := List.mem_map.mp hg
  have hall : ∀ x ∈ geometriesOf parts k, x.uv = false := by
    intro x hx
    unfold geometriesOf at hx
    obtain ⟨p, hp, rfl⟩ := List.mem_map.mp hx
    exact huv p (List.mem_filter.mp hp).1
  simp only at hne hall ⊢
  cases hgeo : geometriesOf parts k with
  | nil => exact absurd hgeo hne
  | cons first rest =>
    rw [hgeo] at hall
    simp only [mergeGeometriesOk, List.all_eq_true, beq_iff_eq]
    intro x hx
    rw [hall x (List.mem_cons_of_mem first hx), hall first (List.mem_cons_self first rest)]

/-- C19 as stated fails: with forest green (`0x228b22`) active,
`mergeCompoundGeometries` is called on the list `activeColorParts`, whose
sub-shapes all lack `uv`, so that the library merges each group.  All
sub-shapes have the same effective material, the cached forest green, yet two
render units come out: one of the `null` entries and one of the entry that
carries the green material, both drawn with that material. -/
theorem same_material_entries_in_two_units :
    (∀ g ∈ geoByMat 0x228b22 activeColorParts, mergeGeometriesOk g.geometries = true) ∧
    (mergeCompoundGeometries mergeGeometriesOk 0x228b22 activeColorParts).map
        (fun u => (u.merged, u.material, u.geometries.length)) =
      [(true, Material.standard 0x228b22, 2), (true, Material.standard 0x228b22, 1)] ∧
    (∀ p ∈ activeColorParts, p.effectiveMaterial 0x228b22 = Material.standard 0x228b22) := by
  have hok := merges_of_uv_free 0x228b22 activeColorParts activeColorParts_uv
  have hunits := mergeCompoundGeometries_all_merged mergeGeometriesOk 0x228b22 activeColorParts hok
  rw [activeColorParts_keys] at hunits
  refine ⟨hok, ?_, ?_⟩
  · rw [hunits]
    simp [MatKey.material, getMaterial, geometriesOf, activeColorParts, buildStandardPart,
      studLoop, baseSpec, Part.matKey, List.range_succ, List.flatMap]
  · intro p hp
    have hk : p.matKey ∈ firstKeys (activeColorParts.map Part.matKey) :=
      (mem_firstKeys _ _).mpr (List.mem_map.mpr ⟨p, hp, rfl⟩)
    rw [activeColorParts_keys] at hk
    rw [effectiveMaterial_eq]
    simp only [List.mem_cons, List.mem_singleton, List.not_mem_nil, or_false] at hk
    rcases hk with hk | hk <;> rw [hk] <;> simp [MatKey.material, getMaterial]

/-- C19, amended: when the merge of every material group of the call
succeeds, `mergeCompoundGeometries` produces exactly one render unit per
distinct grouping key, in order of first appearance, where the key of a `null`
entry is `default` and the key of an entry with a material is that material;
the unit of a key holds the sub-shapes with that key, in order, and is drawn
with the effective material of its sub-shapes.  So two sub-shapes share a unit
when both are `null` or both carry the same material. -/
theorem units_follow_grouping_keys (mergeOk : List Geometry → Bool) (currentColor : Nat)
    (parts : List Part)
    (hok : ∀ g ∈ geoByMat currentColor parts, mergeOk g.geometries = true) :
    mergeCompoundGeometries mergeOk currentColor parts =
      (firstKeys (parts.map Part.matKey)).map (fun k =>
        { geometries := geometriesOf parts k, merged := true,
          material := k.material currentColor,
          edges := decide (k.material currentColor ≠ Material.glass) }) ∧
    (firstKeys (parts.map Part.matKey)).Nodup ∧
    (∀ k, k ∈ firstKeys (parts.map Part.matKey) ↔ ∃ p ∈ parts, p.matKey = k) ∧
    (∀ p ∈ parts, p.geometry ∈ geometriesOf parts p.matKey ∧
      p.matKey.material currentColor = p.effectiveMaterial currentColor) ∧
    (∀ k g, g ∈ geometriesOf parts k ↔ ∃ p ∈ parts, p.matKey = k ∧ p.geometry = g) := by
  refine ⟨mergeCompoundGeometries_all_merged mergeOk currentColor parts hok,
    firstKeys_nodup _, ?_, ?_, ?_⟩
  · intro k
    rw [mem_firstKeys, List.mem_map]
  · intro p hp
    exact ⟨mem_geometriesOf parts p hp, (effectiveMaterial_eq currentColor p).symm⟩
  · intro k g
    unfold geometriesOf
    simp only [List.mem_map, List.mem_filter, decide_eq_true_eq]
    constructor
    · rintro ⟨p, ⟨hp, hk⟩, hg⟩
      exact ⟨p, hp, hk, hg⟩
    · rintro ⟨p, hp, hk, hg⟩
      exact ⟨p, ⟨hp, hk⟩, hg⟩

theorem units_follow_grouping_keys_witness :
    (∀ g ∈ geoByMat 0xcc0000 buildTreeParts, mergeGeometriesOk g.geometries = true) ∧
    (mergeCompoundGeometries mergeGeometriesOk 0xcc0000 buildTreeParts =
      (firstKeys (buildTreeParts.map Part.matKey)).map (fun k =>
        { geometries := geometriesOf buildTreeParts k, merged := true,
          material := k.material 0xcc0000,
          edges := decide (k.material 0xcc0000 ≠ Material.glass) }) ∧
    (firstKeys (buildTreeParts.map Part.matKey)).Nodup ∧
    (∀ k, k ∈ firstKeys (buildTreeParts.map Part.matKey) ↔
      ∃ p ∈ buildTreeParts, p.matKey = k) ∧
    (∀ p ∈ buildTreeParts, p.geometry ∈ geometriesOf buildTreeParts p.matKey ∧
      p.matKey.material 0xcc0000 = p.effectiveMaterial 0xcc0000) ∧
    (∀ k g, g ∈ geometriesOf buildTreeParts k ↔
      ∃ p ∈ buildTreeParts, p.matKey = k ∧ p.geometry = g)) :=
  ⟨merges_of_uv_free 0xcc0000 buildTreeParts buildTreeParts_uv,
   units_follow_grouping_keys mergeGeometriesOk 0xcc0000 buildTreeParts
     (merges_of_uv_free 0xcc0000 buildTreeParts buildTreeParts_uv)⟩

/-- The flower as the library builds it: the merge of the green group fails
(the base, its stud and the stem lack `uv`, the two leaves have it), so its
five sub-shapes are drawn unmerged; the petals and the centre are merged. -/
theorem buildFlower_library_units (currentColor : Nat) :
    (buildFlower mergeGeometriesOk currentColor).map (fun u => (u.merged, u.material)) =
      [(false, Material.standard 0x228b22), (false, Material.standard 0x228b22),
       (false, Material.standard 0x228b22), (false, Material.standard 0x228b22),
       (false, Material.standard 0x228b22), (true, Material.standard currentColor),
       (true, Material.standard 0xFFC300)] := by
  rw [buildFlower, mergeCompoundGeometries_eq, geoByMat_eq, buildFlowerParts_keys]
  simp [unitsOfGroup, geometriesOf, buildFlowerParts, buildStandardPart, studLoop, baseSpec,
    Part.matKey, getMaterial, MatKey.material, mergeGeometriesOk, getStud, Geometry.new,
    Geometry.deleteUv, Geometry.apply, List.range_succ, List.flatMap]

/-! ## Materials of a placed compound part -/

theorem recolor_other (currentColor color : Nat) (u : RenderUnit)
    (h : u.material ≠ getMaterial currentColor) :
    recolor currentColor color [u] = [u] := by
  simp [recolor, h]

theorem recolor_current (currentColor color : Nat) (u : RenderUnit)
    (h : u.material = getMaterial currentColor) :
    recolor currentColor color [u] = [{ u with material := getMaterial color }] := by
  simp [recolor, h, getMaterial]

/-- C18 fails on the code: with forest green (`0x228b22`) active, `addBrick`
reconstructs a tree whose stored color is red (`0xcc0000`).  The builder gave
the canopy, the last sub-shape, the fixed green material; in the mesh that
`addBrick` places, the unit that holds the canopy is drawn with the material
of the requested red. -/
theorem tree_canopy_takes_requested_color :
    buildTreeParts.getLast?.map (fun p => p.material) =
      some (some (Material.standard 0x228b22)) ∧
    ∃ units,
      addBrickMesh (fun _ => true) [] { App.initial with currentColor := 0x228b22 }
          (some { specId := "pre_tree", color := 0xcc0000, pos := ⟨0, 0, 0⟩, rot := 0 }) =
        some (PlacedDrawable.compound units) ∧
      units.map (fun u => u.material) =
        [Material.standard 0x8B4513, Material.standard 0xcc0000] ∧
      units.map (fun u => u.geometries) =
        [geometriesOf buildTreeParts (MatKey.uuid (Material.standard 0x8B4513)),
         geometriesOf buildTreeParts (MatKey.uuid (Material.standard 0x228b22))] ∧
      (∀ p ∈ buildTreeParts, p.material = some (Material.standard 0x228b22) →
        p.geometry ∈ geometriesOf buildTreeParts (MatKey.uuid (Material.standard 0x228b22))) := by
  have hunits := mergeCompoundGeometries_all_merged (fun _ => true) 0x228b22 buildTreeParts
    (fun _ _ => rfl)
  rw [buildTreeParts_keys] at hunits
  refine ⟨by simp [buildTreeParts, getMaterial],
    [{ geometries := geometriesOf buildTreeParts (MatKey.uuid (Material.standard 0x8B4513)),
       merged := true, material := Material.standard 0x8B4513, edges := true },
     { geometries := geometriesOf buildTreeParts (MatKey.uuid (Material.standard 0x228b22)),
       merged := true, material := Material.standard 0xcc0000, edges := true }],
    ?_, ?_, ?_, ?_⟩
  · simp only [addBrickMesh, specs, CATALOG]
    simp [getLegoPart, buildTree, hunits, recolor, MatKey.material, getMaterial]
  · simp
  · simp
  · intro p hp hm
    have := mem_geometriesOf buildTreeParts p hp
    simpa [Part.matKey, hm] using this

end Lego
